import Mathlib

/-!
# Verification of the IPL live-match scraper's extraction engine

This file gives a shallow embedding of the extraction and reconciliation
engine of `paste.py` (class `IPLScraper`) and proves/refutes the frozen
claims about it.

Modelling conventions:
* Python `str` is modelled as `List Char` (`PyStr`); `s.strip()` is
  `pyStrip`, `s.lower()` is `pyLower`, `a in b` (substring test) is
  `pyIn`, `s.split('(')` is `pySplitChar '('`, `int(s)` / `float(s)` are
  `pyInt?` / `pyFloat?` (returning `none` where Python raises
  `ValueError`; exponent/inf spellings of `float` literals are outside
  the modelled input space).
* The parsed BeautifulSoup document is abstracted into `Doc`: each field
  holds the *result* of the CSS-selector queries the extractors perform
  (the selector cascades themselves are plumbing over the third-party
  markup library and are represented by the node lists they return).
* `self.match_data` is the record `MatchData`.  Python dicts with
  optional keys become records of `Option` fields; the two team slots of
  `teams` / `batting_stats` / `bowling_stats` are explicit `team1` /
  `team2` components addressed through `TeamKey`.
* A Python exception raised inside an extractor's `try` body is a
  `.error` carrying the state as mutated up to the raise point; the
  extractor's `except` handler (which only logs) is `runCaught` /
  `Except.payload`, yielding that partially-mutated state.
-/

set_option maxRecDepth 4096

/-- Python `str`, as a list of characters. -/
abbrev PyStr := List Char

/-- Coerce a Lean string literal to the `PyStr` model. -/
def pstr (s : String) : PyStr := s.data

/-- Python `s.lstrip()` behaviour on whitespace (also `re.sub(r'^\s*','',s)`). -/
def pyLStrip (l : PyStr) : PyStr := l.dropWhile Char.isWhitespace

/-- Python `s.strip()`: remove leading and trailing whitespace. -/
def pyStrip (l : PyStr) : PyStr :=
  ((l.dropWhile Char.isWhitespace).reverse.dropWhile Char.isWhitespace).reverse

/-- Python `s.lower()`. -/
def pyLower (l : PyStr) : PyStr := l.map Char.toLower

/-- Python `s.upper()`. -/
def pyUpper (l : PyStr) : PyStr := l.map Char.toUpper

/-- Python `needle in hay` for strings (substring containment;
`"" in hay` is `True`). -/
def pyIn (needle : PyStr) : PyStr → Bool
  | [] => needle.isPrefixOf []
  | c :: rest => needle.isPrefixOf (c :: rest) || pyIn needle rest

/-- Python `s.split(sep)` for a one-character separator `sep`. -/
def pySplitChar (c : Char) : PyStr → List PyStr
  | [] => [[]]
  | x :: xs =>
    match pySplitChar c xs with
    | [] => [[]]      -- unreachable: the result is always non-empty
    | r :: rs => if x = c then [] :: r :: rs else (x :: r) :: rs

/-- Python `s.replace(old, '')` for a one-character `old`. -/
def pyRemoveChar (c : Char) (l : PyStr) : PyStr := l.filter (· ≠ c)

/-- First token of Python `s.split()` (whitespace split, empties dropped);
`[]` when there is no token. -/
def pyWsSplitHead (l : PyStr) : PyStr :=
  (l.dropWhile Char.isWhitespace).takeWhile (fun c => ¬ c.isWhitespace)

/-- Value of a non-empty digit string. -/
def digitsToNat (l : PyStr) : Nat :=
  l.foldl (fun acc c => acc * 10 + (c.toNat - '0'.toNat)) 0

/-- Python `int(s)`: `none` where Python raises `ValueError`.
(Modelled for plain decimal integer literals with an optional sign.) -/
def pyInt? (l : PyStr) : Option Int :=
  let t := pyStrip l
  let (sgn, digits) : Int × PyStr :=
    match t with
    | '-' :: rest => (-1, rest)
    | '+' :: rest => (1, rest)
    | _ => (1, t)
  if digits ≠ [] ∧ digits.all Char.isDigit then
    some (sgn * (digitsToNat digits : Int))
  else none

/-- Python `float(s)` as an exact rational: `none` where Python raises
`ValueError`.  (Modelled for plain decimal literals `d*.d*` with an
optional sign; comparisons performed on these values agree with the
binary-float comparisons in the source for the overs strings in scope.) -/
def pyFloat? (l : PyStr) : Option ℚ :=
  let t := pyStrip l
  let (sgn, body) : ℚ × PyStr :=
    match t with
    | '-' :: rest => (-1, rest)
    | '+' :: rest => (1, rest)
    | _ => (1, t)
  match pySplitChar '.' body with
  | [a] =>
    if a ≠ [] ∧ a.all Char.isDigit then some (sgn * (digitsToNat a : ℚ)) else none
  | [a, b] =>
    if (a ≠ [] ∨ b ≠ []) ∧ a.all Char.isDigit ∧ b.all Char.isDigit then
      some (sgn * ((digitsToNat a : ℚ) + (digitsToNat b : ℚ) / (10 : ℚ) ^ b.length))
    else none
  | _ => none

/-! ## Data model (`self.match_data`) -/

/-- The two team slots of the `teams` / `batting_stats` / `bowling_stats`
dictionaries. -/
inductive TeamKey
  | team1
  | team2
deriving DecidableEq, Repr

/-- The dictionary stored per team slot by `parse_teams_and_scores`
(keys are optional: a missing dict key is `none`). -/
structure TeamEntry where
  name : Option PyStr
  score : Option PyStr
  runs : Option PyStr
  wickets : Option PyStr
  overs : Option PyStr
  innings_complete : Option Bool
  won : Option Bool
deriving DecidableEq, Repr

/-- A parsed batting row as appended to `batting_stats` (lines 388-397). -/
structure BattingEntry where
  name : PyStr
  runs : PyStr
  balls : PyStr
  fours : PyStr
  sixes : PyStr
  strike_rate : PyStr
  dismissal : PyStr
deriving DecidableEq, Repr

/-- A parsed bowling row (lines 712-720); `inferred` is the flag the
placeholder synthesis sets (absent on parsed rows, modelled `false`). -/
structure BowlingEntry where
  name : PyStr
  overs : PyStr
  maidens : PyStr
  runs : PyStr
  wickets : PyStr
  economy : PyStr
  inferred : Bool
deriving DecidableEq, Repr

/-- A commentary entry: the two item shapes of `parse_commentary`. -/
inductive CommentaryEntry
  | general (time text : PyStr)
  | ball (over result text : PyStr)
deriving DecidableEq, Repr

/-- The `match_info` dictionary.  `title` … `result` are initialised to
`''` in `__init__`; `player_of_match` and `innings_status` are keys that
are only created when first written. -/
structure MatchInfo where
  title : PyStr
  venue : PyStr
  date : PyStr
  status : PyStr
  result : PyStr
  player_of_match : Option PyStr
  innings_status : Option PyStr
deriving DecidableEq, Repr

/-- `self.match_data`.  The `teams`, `batting_stats` and `bowling_stats`
dictionaries are given by their two possible slots (`none` = key absent). -/
structure MatchData where
  match_info : MatchInfo
  team1 : Option TeamEntry
  team2 : Option TeamEntry
  batting1 : Option (List BattingEntry)
  batting2 : Option (List BattingEntry)
  bowling1 : Option (List BowlingEntry)
  bowling2 : Option (List BowlingEntry)
  commentary : List CommentaryEntry
  last_updated : PyStr
deriving DecidableEq, Repr

def MatchData.getTeam (st : MatchData) : TeamKey → Option TeamEntry
  | .team1 => st.team1
  | .team2 => st.team2

def MatchData.setTeam (st : MatchData) : TeamKey → Option TeamEntry → MatchData
  | .team1, e => { st with team1 := e }
  | .team2, e => { st with team2 := e }

def MatchData.getBatting (st : MatchData) : TeamKey → Option (List BattingEntry)
  | .team1 => st.batting1
  | .team2 => st.batting2

def MatchData.getBowling (st : MatchData) : TeamKey → Option (List BowlingEntry)
  | .team1 => st.bowling1
  | .team2 => st.bowling2

/-! ## Document model

Each field holds the result of the CSS-selector lookups performed by the
corresponding extractor; element text is carried as the raw `.text` /
`get_text()` value, before any `.strip()` the extractor applies. -/

/-- A team name or score element: its text and its `class` attribute list. -/
structure ClassedElem where
  text : PyStr
  classes : List PyStr
deriving DecidableEq, Repr

/-- One `.ckt_match_details` section (lines 167-236). -/
structure TeamSection where
  name_elem : Option ClassedElem
  score_elem : Option ClassedElem
deriving DecidableEq, Repr

/-- The first-column cell of a batting row. -/
structure BatNameCell where
  link_text : Option PyStr      -- text of a nested `a`, if present
  raw_text : PyStr
  classes : List PyStr          -- for the `'bold'` / `'ckt_dis'` markers
  has_strike : Bool             -- `select_one('s, strike, del')` found
deriving DecidableEq, Repr

/-- One `tr.ckt_row_item` of a batting table.  `cells` are the texts of
all `td` children (index 0 is the name cell's own text); `footnote` is
the text of a `.ckt_row_subl, .b_footnote` element inside the next
sibling `tr`, when such an element exists. -/
structure BattingRow where
  name_cell : Option BatNameCell
  cells : List PyStr
  footnote : Option PyStr
deriving DecidableEq, Repr

/-- One candidate batting table: the text of its `tr.ckt_row_hdr` header
row (when present) and its `tr.ckt_row_item` rows. -/
structure BattingTable where
  header_text : Option PyStr
  rows : List BattingRow
deriving DecidableEq, Repr

/-- The first-column cell of a bowling row. -/
structure BowlNameCell where
  link_text : Option PyStr
  raw_text : PyStr
deriving DecidableEq, Repr

/-- One bowler row; `cells` are the texts of the `td` children. -/
structure BowlingRow where
  name_cell : Option BowlNameCell
  cells : List PyStr
deriving DecidableEq, Repr

/-- One candidate bowling table.  `header_cells` are the stripped texts of
the `td` children of `tr.ckt_row_hdr` (when that row exists);
`first_row_text` is the text of the table's first `tr` (when any row
exists), used by the keyword fallback; `tab_context` is the id/data-id
found by the five-level ancestor climb (lines 623-636), when any. -/
structure BowlingTable where
  header_cells : Option (List PyStr)
  first_row_text : Option PyStr
  tab_context : Option PyStr
  rows : List BowlingRow
deriving DecidableEq, Repr

/-- A `.ckt_comm_time` element: the text of its bold child (if any) and
the concatenation of the stripped texts of its other children. -/
structure TimeElem where
  bold : Option PyStr
  rest : PyStr
deriving DecidableEq, Repr

/-- A `.ckt_comm_ball` element. -/
structure BallElem where
  over : Option PyStr
  result : Option PyStr
deriving DecidableEq, Repr

/-- One commentary item. -/
structure CommItem where
  time_elem : Option TimeElem
  ball_elem : Option BallElem
  txt : Option PyStr            -- `.ckt_comm_txt`
deriving DecidableEq, Repr

/-- The `date` element together with whether it has a `.team_score`
descendant (line 144). -/
structure DateElem where
  text : PyStr
  has_team_score_child : Bool
deriving DecidableEq, Repr

/-- The parsed document, abstracted to the query results the extractors
consume. -/
structure Doc where
  tournament_elem : Option PyStr
  status_elem : Option PyStr
  date_elem : Option DateElem
  mom_elem : Option PyStr
  venue_elem : Option PyStr
  team_sections : List TeamSection
  batting_tables : List BattingTable
  bowling_tables : List BowlingTable
  commentary_items : List CommItem
deriving DecidableEq, Repr

/-- The state a caught exception leaves behind: the `except` handlers in
the source only log, so the state at the raise point survives. -/
def Except.payload {α : Type _} : Except α α → α
  | .ok a => a
  | .error a => a

/-! ## `parse_match_info` (lines 127-161)

Every lookup is guarded; missing elements leave the field at its prior
value, so the body has no raise site and is total. -/

/-- The `match_info` transformation of `parse_match_info`. -/
def miCompute (d : Doc) (mi : MatchInfo) : MatchInfo :=
  let mi := match d.tournament_elem with
    | some t => { mi with title := pyStrip t }
    | none => mi
  let mi := match d.status_elem with
    | some t => { mi with status := pyStrip t }
    | none => mi
  let mi := match d.date_elem with
    | some de => if ¬ de.has_team_score_child then { mi with date := pyStrip de.text } else mi
    | none => mi
  let mi := match d.mom_elem with
    | some t => { mi with player_of_match := some (pyStrip t) }
    | none => mi
  match d.venue_elem with
  | some t => { mi with venue := pyStrip t }
  | none => mi

def parse_match_info (st : MatchData) (d : Doc) : MatchData :=
  { st with match_info := miCompute d st.match_info }

/-! ## `parse_teams_and_scores` (lines 163-239)

Raise sites inside the `try` body, all modelled as `.error` carrying the
state at the raise point:
* `runs, wickets = score.split('/')` with more than two parts
  (`ValueError`, line 202);
* `float(overs.split()[0])` on a non-numeric overs token
  (`ValueError`, line 208);
* `self.match_data['teams'][team_key]` when the key is absent
  (`KeyError`, lines 186, 215, 230, 235). -/

/-- The dict `parse_teams_and_scores` assigns on finding a team name
(line 176): the slot is *reset* to `{'name': ...}`. -/
def freshEntry (n : PyStr) : TeamEntry :=
  { name := some n, score := none, runs := none, wickets := none,
    overs := none, innings_complete := none, won := none }

/-- Lines 172-177: reset the slot when a name element is found. -/
def nameStep (sec : TeamSection) (e : Option TeamEntry) : Option TeamEntry :=
  match sec.name_elem with
  | some ne => some (freshEntry (pyStrip ne.text))
  | none => e

/-- Lines 186-191: the "yet to bat" update. -/
def applyYtb (x : TeamEntry) : TeamEntry :=
  { x with score := some (pstr "Yet to bat"), runs := some (pstr "Yet to bat"),
           wickets := some (pstr "0"), overs := some [] }

/-- Lines 195-204: split the stripped score text into
`(score, runs, wickets, overs)`; `none` models the `ValueError` of the
two-target unpacking when `score` contains more than one `/`. -/
def parseScoreParts (score_text : PyStr) : Option (PyStr × PyStr × PyStr × PyStr) :=
  let score_parts := pySplitChar '(' score_text
  let score := pyStrip (score_parts.headD [])
  let overs := if score_parts.length > 1
    then pyStrip (pyRemoveChar ')' (score_parts.getD 1 []))
    else []
  if ('/' : Char) ∈ score then
    match pySplitChar '/' score with
    | [r, w] => some (score, r, w, overs)
    | _ => none
  else
    some (score, score, pstr "0", overs)

/-- Lines 206-213: the innings-completion computation; `none` models the
`ValueError` of `float` on a non-numeric overs token. -/
def inningsCompleteOf (overs wickets : PyStr) : Option Bool :=
  let fromOvers : Option Bool :=
    if overs ≠ [] then
      if pyIn (pstr "20") overs then some true
      else match pyFloat? (pyWsSplitHead overs) with
        | some q => some (decide (q ≥ 20))
        | none => none
    else some false
  match fromOvers with
  | none => none
  | some b => some (b || wickets = pstr "10")

/-- Line 215: `teams[team_key].update({score, runs, wickets, overs,
innings_complete})`. -/
def applyScore (x : TeamEntry) (score runs wickets overs : PyStr) (ic : Bool) : TeamEntry :=
  { x with score := some score, runs := some runs, wickets := some wickets,
           overs := some overs, innings_complete := some ic }

/-- `teams[team_key]['won'] = True`; `KeyError` when the slot is absent. -/
def setWonE (e : Option TeamEntry) : Except (Option TeamEntry) (Option TeamEntry) :=
  match e with
  | some x => .ok (some { x with won := some true })
  | none => .error none

/-- Lines 228-236: the two `ckt_won` checks (skipped by the
`continue` of the "yet to bat" branch). -/
def wonChecks (sec : TeamSection) (e : Option TeamEntry) :
    Except (Option TeamEntry) (Option TeamEntry) := do
  let e ← match sec.name_elem with
    | some ne => if pstr "ckt_won" ∈ ne.classes then setWonE e else .ok e
    | none => .ok e
  match sec.score_elem with
  | some se => if pstr "ckt_won" ∈ se.classes then setWonE e else .ok e
  | none => .ok e

/-- Process one team section (one iteration of the loop at line 169),
acting on that section's slot. -/
def teamSlotStep (sec : TeamSection) (e0 : Option TeamEntry) :
    Except (Option TeamEntry) (Option TeamEntry) :=
  let e1 := nameStep sec e0
  match sec.score_elem with
  | none => wonChecks sec e1
  | some se =>
    let score_text := pyStrip se.text
    if pyIn (pstr "yet to bat") (pyLower score_text) then
      match e1 with
      | none => .error e1                                 -- KeyError, line 186
      | some x => .ok (some (applyYtb x))                 -- then `continue`
    else
      match parseScoreParts score_text with
      | none => .error e1                                 -- ValueError, line 202
      | some (score, runs, wickets, overs) =>
        match inningsCompleteOf overs wickets with
        | none => .error e1                               -- ValueError, line 208
        | some ic =>
          match e1 with
          | none => .error e1                             -- KeyError, line 215
          | some x => wonChecks sec (some (applyScore x score runs wickets overs ic))

/-- The team-slot transformation of `parse_teams_and_scores`: the loop
over `team_sections[:2]`, a raise aborting the remaining iterations. -/
def teamsComputeE (d : Doc) (t1 t2 : Option TeamEntry) :
    Except (Option TeamEntry × Option TeamEntry) (Option TeamEntry × Option TeamEntry) :=
  match d.team_sections with
  | [] => .ok (t1, t2)
  | [s1] =>
    match teamSlotStep s1 t1 with
    | .ok e1 => .ok (e1, t2)
    | .error e1 => .error (e1, t2)
  | s1 :: s2 :: _ =>
    match teamSlotStep s1 t1 with
    | .error e1 => .error (e1, t2)
    | .ok e1 =>
      match teamSlotStep s2 t2 with
      | .ok e2 => .ok (e1, e2)
      | .error e2 => .error (e1, e2)

/-- The caught result (the handler at line 238 only logs). -/
def teamsCompute (d : Doc) (t1 t2 : Option TeamEntry) :
    Option TeamEntry × Option TeamEntry :=
  (teamsComputeE d t1 t2).payload

/-- `parse_teams_and_scores`, with its raise sites surfaced. -/
def parse_teams_and_scoresE (st : MatchData) (d : Doc) : Except MatchData MatchData :=
  match teamsComputeE d st.team1 st.team2 with
  | .ok (a, b) => .ok { st with team1 := a, team2 := b }
  | .error (a, b) => .error { st with team1 := a, team2 := b }

def parse_teams_and_scores (st : MatchData) (d : Doc) : MatchData :=
  (parse_teams_and_scoresE st d).payload

/-! ## `parse_batting_stats` (lines 241-412)

The body clears `batting_stats` first (line 245).  Raise sites:
* `int(team_data.get('wickets', '0'))` on a non-numeric wickets string
  (`ValueError`, line 362);
* `int(b['runs'])` inside the `sorted` key when inferring extra
  dismissals (`ValueError`, line 372).
Each is modelled as `.error` carrying the `batting_stats` slots (and
`innings_status` writes) committed so far. -/

/-- One row of `all_batsmen` (lines 348-358).  `rowIdx` is the row's
position in `batsman_rows` and models the identity of the `'row'` key:
two distinct rows never compare equal, matching Python dict equality on
entries holding distinct `row` objects. -/
structure BatRowData where
  name : PyStr
  runs : PyStr
  balls : PyStr
  fours : PyStr
  sixes : PyStr
  strike_rate : PyStr
  dismissal : PyStr
  is_out : Bool
  rowIdx : Nat
deriving DecidableEq, Repr

/-- Lines 297-358: parse one batting row into an `all_batsmen` entry;
`none` when the row is skipped (no name cell, a totals/extras row, or
fewer than 6 cells). -/
def parseBatRow (idx : Nat) (row : BattingRow) : Option BatRowData :=
  match row.name_cell with
  | none => none
  | some nc =>
    let player_name := match nc.link_text with
      | some lt => pyStrip lt
      | none => pyStrip nc.raw_text
    if pyIn (pstr "total") (pyLower player_name) || pyIn (pstr "extras") (pyLower player_name) then
      none
    else if row.cells.length ≥ 6 then
      -- footnote signal (lines 326-333)
      let (dis1, out1) : PyStr × Bool := match row.footnote with
        | some ft =>
          let t := pyStrip ft
          if t ≠ [] ∧ ¬ pyIn (pstr "not out") (pyLower t) then (t, true)
          else (pstr "not out", false)
        | none => (pstr "not out", false)
      -- class-marker signal (lines 336-339)
      let (dis2, out2) : PyStr × Bool :=
        if pstr "bold" ∈ nc.classes ∨ pstr "ckt_dis" ∈ nc.classes then
          (if dis1 = pstr "not out" then pstr "out" else dis1, true)
        else (dis1, out1)
      -- strikethrough signal (lines 342-345)
      let (dis3, out3) : PyStr × Bool :=
        if nc.has_strike then
          (if dis2 = pstr "not out" then pstr "out" else dis2, true)
        else (dis2, out2)
      some { name := player_name,
             runs := pyStrip (row.cells.getD 1 []),
             balls := pyStrip (row.cells.getD 2 []),
             fours := pyStrip (row.cells.getD 3 []),
             sixes := pyStrip (row.cells.getD 4 []),
             strike_rate := pyStrip (row.cells.getD 5 []),
             dismissal := dis3, is_out := out3, rowIdx := idx }
    else none

/-- Number of rows currently flagged out (line 363). -/
def countOut (l : List BatRowData) : Nat := (l.filter (·.is_out)).length

/-- The `sorted(..., key=lambda b: int(b['runs']), reverse=True)` key.
`parse_batting_stats` only evaluates it after every row's runs string
has been checked to parse (a failed parse raises first). -/
def runsKey (b : BatRowData) : Int := (pyInt? b.runs).getD 0

/-- Stable descending insertion by `runsKey` (ties keep original order,
as Python's stable `sorted` with `reverse=True` does). -/
def insertDescByRuns (x : BatRowData) : List BatRowData → List BatRowData
  | [] => [x]
  | y :: ys => if runsKey x ≥ runsKey y then x :: y :: ys else y :: insertDescByRuns x ys

/-- `sorted(all_batsmen, key=lambda b: int(b['runs']), reverse=True)`. -/
def sortDescByRuns (l : List BatRowData) : List BatRowData :=
  l.foldr insertDescByRuns []

/-- Line 372: the two rows treated as the pair at the crease. -/
def currentBatsmen (l : List BatRowData) : List BatRowData :=
  (sortDescByRuns l).take 2

/-- Lines 379-380: mark a row out with the generic label. -/
def markOut (b : BatRowData) : BatRowData :=
  { b with is_out := true, dismissal := pstr "out" }

/-- Lines 373-385: walk the rows in table order, marking eligible rows
out until the running count reaches `wickets_down` (then `break`). -/
def markLoop (cur : List BatRowData) (wickets : Int) : Int → List BatRowData → List BatRowData
  | _, [] => []
  | count, b :: rest =>
    if b.is_out ∨ b ∈ cur then b :: markLoop cur wickets count rest
    else if count + 1 ≥ wickets then markOut b :: rest
    else markOut b :: markLoop cur wickets (count + 1) rest

/-- Lines 366-385 (after the parses at 362/372 succeeded): the
wicket-count reconciliation.  The sort by original table position at
line 368 is the identity (the rows were collected in table order). -/
def reconcileRows (rows : List BatRowData) (wickets_down : Int) : List BatRowData :=
  if wickets_down > (countOut rows : Int) then
    markLoop (currentBatsmen rows) wickets_down (countOut rows : Int) rows
  else rows

/-- Line 396: re-derive the stored dismissal string. -/
def toBattingEntry (b : BatRowData) : BattingEntry :=
  { name := b.name, runs := b.runs, balls := b.balls, fours := b.fours,
    sixes := b.sixes, strike_rate := b.strike_rate,
    dismissal := if b.is_out then b.dismissal else pstr "not out" }

/-- The `batting_stats` slots plus the `innings_status` write of
`parse_batting_stats` (`none` = not written this update). -/
structure BattingOut where
  b1 : Option (List BattingEntry)
  b2 : Option (List BattingEntry)
  innings : Option PyStr
deriving DecidableEq, Repr

def BattingOut.get (o : BattingOut) : TeamKey → Option (List BattingEntry)
  | .team1 => o.b1
  | .team2 => o.b2

def BattingOut.set (o : BattingOut) : TeamKey → Option (List BattingEntry) → BattingOut
  | .team1, v => { o with b1 := v }
  | .team2, v => { o with b2 := v }

/-- `team1` / `team2` as the key strings used for `innings_status`. -/
def TeamKey.str : TeamKey → PyStr
  | .team1 => pstr "team1"
  | .team2 => pstr "team2"

/-- `team_data.get(field, default)` on an optional slot. -/
def entryField (e : Option TeamEntry) (f : TeamEntry → Option PyStr) (dflt : PyStr) : PyStr :=
  (e.bind f).getD dflt

/-- `self.match_data['teams'].get(team_key, {})` over the two slots. -/
def slotOf (k : TeamKey) (t1 t2 : Option TeamEntry) : Option TeamEntry :=
  match k with
  | .team1 => t1
  | .team2 => t2

/-- The `int(b['runs'])` evaluations the `sorted` key at line 372
performs, in list order; `none` as soon as one raises `ValueError`. -/
def allRunsParsed : List BatRowData → Option (List Int)
  | [] => some []
  | b :: rest =>
    match pyInt? b.runs with
    | none => none
    | some i =>
      match allRunsParsed rest with
      | none => none
      | some l => some (i :: l)

/-- Lines 291-409, the per-table work once the table is accepted and the
team has batted: create the slot, collect the rows, reconcile with the
wicket count, store the entries, bump `batting_count`, note
`innings_status`. -/
def battingTableBody (team_key : TeamKey) (team_data : Option TeamEntry)
    (o : BattingOut) (bc : Nat) (table : BattingTable) :
    Except BattingOut (BattingOut × Nat) :=
  let o1 := o.set team_key (some [])                       -- line 291
  let all_batsmen := (table.rows.enum.filterMap (fun p => parseBatRow p.1 p.2))
  match pyInt? (entryField team_data (·.wickets) (pstr "0")) with
  | none => .error o1                                      -- ValueError, line 362
  | some wickets_down =>
    match (if wickets_down > (countOut all_batsmen : Int) then
             match allRunsParsed all_batsmen with
             | none => Except.error o1                     -- ValueError, line 372
             | some _ => Except.ok (reconcileRows all_batsmen wickets_down)
           else Except.ok all_batsmen) with
    | .error o2 => .error o2
    | .ok rows' =>
      let entries := rows'.map toBattingEntry
      let o2 := o1.set team_key (some entries)
      let bc' := if entries ≠ [] then bc + 1 else bc       -- lines 401-403
      -- innings-status note (lines 405-409)
      let overs := entryField team_data (·.overs) []
      if overs ≠ [] ∧ pyIn (pstr "20") overs then
        .ok ({ o2 with innings := some (team_key.str ++ pstr "_complete") }, bc')
      else
        .ok (o2, bc')

/-- Lines 274-409: process one batting table.  `t1`/`t2` are the team
slots (read-only here), `acc` the `batting_stats` written so far plus
`batting_count`. -/
def processBattingTable (bf bs : TeamKey) (t1 t2 : Option TeamEntry)
    (acc : BattingOut × Nat) (table : BattingTable) :
    Except BattingOut (BattingOut × Nat) :=
  -- header check (lines 276-278)
  match table.header_text with
  | none => .ok acc
  | some ht =>
    if ¬ pyIn (pstr "BATTERS") ht then .ok acc
    else
      let team_key := if acc.2 = 0 then bf else bs
      let team_data := slotOf team_key t1 t2
      -- skip a team that has not batted (lines 287-289)
      if pyIn (pstr "yet to bat") (pyLower (entryField team_data (·.score) [])) then .ok acc
      else battingTableBody team_key team_data acc.1 acc.2 table

/-- The loop over the candidate batting tables. -/
def processBattingTables (bf bs : TeamKey) (t1 t2 : Option TeamEntry) :
    BattingOut × Nat → List BattingTable → Except BattingOut (BattingOut × Nat)
  | acc, [] => .ok acc
  | acc, t :: ts =>
    match processBattingTable bf bs t1 t2 acc t with
    | .error o => .error o
    | .ok acc' => processBattingTables bf bs t1 t2 acc' ts

/-- The full batting extractor body on its inputs: the cleared stats
(line 245), the batting-order decision (lines 259-271), then the table
loop. -/
def battingComputeE (d : Doc) (t1 t2 : Option TeamEntry) (status : PyStr) :
    Except BattingOut BattingOut :=
  let match_status := pyLower status
  let team2_name := pyLower (entryField t2 (·.name) [])
  let swap := team2_name ≠ [] ∧ pyIn team2_name match_status ∧
      pyIn (pstr "elected to field") match_status
  let bf : TeamKey := if swap then .team2 else .team1
  let bs : TeamKey := if swap then .team1 else .team2
  match processBattingTables bf bs t1 t2 (⟨none, none, none⟩, 0) d.batting_tables with
  | .ok (o, _) => .ok o
  | .error o => .error o

/-- The caught outcome (handler at line 411 only logs). -/
def battingCompute (d : Doc) (t1 t2 : Option TeamEntry) (status : PyStr) : BattingOut :=
  (battingComputeE d t1 t2 status).payload

/-- Apply an `innings_status` write to `match_info` (line 408). -/
def applyInnings (mi : MatchInfo) : Option PyStr → MatchInfo
  | some v => { mi with innings_status := some v }
  | none => mi

def parse_batting_stats (st : MatchData) (d : Doc) : MatchData :=
  let o := battingCompute d st.team1 st.team2 st.match_info.status
  { st with batting1 := o.b1, batting2 := o.b2,
            match_info := applyInnings st.match_info o.innings }

/-! ## `parse_bowling_stats` (lines 414-749)

The body initialises both bowling slots to `[]` (lines 421-422).  Each
table and each row is processed inside its own `try`/`except ...
continue`, and none of the operations the model covers can raise, so the
body is total. -/

/-- Lines 499-548: determine `current_bowling_team` (`none` = process
every table). -/
def determineCurrentBowlingTeam (t1 t2 : Option TeamEntry) (status : PyStr) :
    Option TeamKey :=
  let team1_score := pyLower (entryField t1 (·.score) [])
  let team2_score := pyLower (entryField t2 (·.score) [])
  if pyIn (pstr "yet to bat") team2_score then some .team2
  else if pyIn (pstr "yet to bat") team1_score then some .team1
  else
    let match_status := pyLower status
    let anyWon := ((t1.bind (·.won)).getD false) || ((t2.bind (·.won)).getD false)
    let match_completed :=
      pyIn (pstr "won by") match_status ||
      pyIn (pstr "match tied") match_status ||
      pyIn (pstr "won the match") match_status ||
      pyIn (pstr "match over") match_status ||
      anyWon
    if match_completed then none
    else
      let ic1 := (t1.bind (·.innings_complete)).getD false
      let ic2 := (t2.bind (·.innings_complete)).getD false
      if ic1 ∧ ¬ ic2 then some .team1
      else if ic2 ∧ ¬ ic1 then some .team2
      else none

/-- Lines 571-614: does this table qualify as a bowling table? -/
def isBowlingTable (t : BowlingTable) : Bool :=
  let primary :=
    match t.header_cells with
    | some cells =>
      if cells.length ≥ 6 then
        let header_texts := cells.map (fun c => pyUpper (pyStrip c))
        pyIn (pstr "BOWLERS") (header_texts.headD []) ||
          (((pstr "O") ∈ header_texts ∨ (pstr "OVERS") ∈ header_texts ∨ (pstr "OV") ∈ header_texts) &&
           ((pstr "W") ∈ header_texts ∨ (pstr "WKTS") ∈ header_texts ∨ (pstr "WICKETS") ∈ header_texts) &&
           ((pstr "R") ∈ header_texts ∨ (pstr "RUNS") ∈ header_texts ∨ (pstr "RNS") ∈ header_texts))
      else false
    | none => false
  if primary then true
  else
    match t.first_row_text with
    | some frt =>
      let u := pyUpper (pyStrip frt)
      pyIn (pstr "BOWLERS") u || pyIn (pstr "BOWLING") u ||
        pyIn (pstr "OVERS") u || pyIn (pstr "ECON") u
    | none => false

/-- Lines 638-648: assign the table's team from its tab context, else by
position count. -/
def assignBowlingTeam (t : BowlingTable) (bowling_count : Nat) : TeamKey :=
  match t.tab_context with
  | some tp => if tp = pstr "tab_1" ∨ tp = pstr "ckt_fltr_0" then .team2 else .team1
  | none => if bowling_count = 0 then .team2 else .team1

/-- Line 653: skip a table whose team differs from a set
`current_bowling_team`. -/
def skipTable (cbt : Option TeamKey) (bowling_team : TeamKey) : Bool :=
  match cbt with
  | some c => bowling_team ≠ c
  | none => false

/-- `re.sub(r'^\s*[^a-zA-Z]+', '', name)`: the regex's effect is to drop
the maximal leading run of non-letter characters. -/
def stripLeadingNonAlpha (l : PyStr) : PyStr :=
  l.dropWhile (fun c => ¬ c.isAlpha)

/-- `re.sub(r'[^a-zA-Z\)]+\s*$', '', name)`: drop the maximal trailing
run of characters that are neither letters nor `)`. -/
def stripTrailingNonAlphaParen (l : PyStr) : PyStr :=
  (l.reverse.dropWhile (fun c => ¬ (c.isAlpha ∨ c = ')'))).reverse

/-- Lines 682-692: bowler-name cleanup. -/
def cleanBowlerName (raw : PyStr) : PyStr :=
  let n := raw.map (fun c => if c = '\xa0' then ' ' else c)
  let n := if pyIn (pstr "(") n ∧ ¬ pyIn (pstr ")") n then n ++ [')'] else n
  stripTrailingNonAlphaParen (stripLeadingNonAlpha n)

/-- Lines 751-763, `_add_bowler_if_not_exists`: the dict comprehension
keeps the *last* index per name; an existing name is replaced in place,
a new one appended. -/
def lastIdxOfName (n : PyStr) : List BowlingEntry → Option Nat
  | [] => none
  | e :: es =>
    match lastIdxOfName n es with
    | some i => some (i + 1)
    | none => if e.name = n then some 0 else none

def addBowlerIfNotExists (lst : List BowlingEntry) (b : BowlingEntry) : List BowlingEntry :=
  match lastIdxOfName b.name lst with
  | some i => lst.set i b
  | none => lst ++ [b]

/-- Lines 670-728: parse one bowler row and upsert it (rows that are
invalid, totals/extras, or too short are skipped). -/
def processBowlerRow (lst : List BowlingEntry) (row : BowlingRow) : List BowlingEntry :=
  match row.name_cell with
  | none => lst
  | some nc =>
    let raw := match nc.link_text with
      | some lt => pyStrip lt
      | none => pyStrip nc.raw_text
    let player_name := cleanBowlerName raw
    if pyIn (pstr "total") (pyLower player_name) || pyIn (pstr "extras") (pyLower player_name) then
      lst
    else if row.cells.length ≥ 6 then
      addBowlerIfNotExists lst
        { name := player_name,
          overs := pyStrip (row.cells.getD 1 []),
          maidens := pyStrip (row.cells.getD 2 []),
          runs := pyStrip (row.cells.getD 3 []),
          wickets := pyStrip (row.cells.getD 4 []),
          economy := pyStrip (row.cells.getD 5 []),
          inferred := false }
    else lst

/-- The two bowling slots (both always present after initialisation). -/
abbrev BowlingSlots := List BowlingEntry × List BowlingEntry

def BowlingSlots.get (s : BowlingSlots) : TeamKey → List BowlingEntry
  | .team1 => s.1
  | .team2 => s.2

def BowlingSlots.set (s : BowlingSlots) : TeamKey → List BowlingEntry → BowlingSlots
  | .team1, v => (v, s.2)
  | .team2, v => (s.1, v)

/-- Lines 563-735: process one candidate table. -/
def processBowlingTable (cbt : Option TeamKey) (acc : BowlingSlots × Nat)
    (t : BowlingTable) : BowlingSlots × Nat :=
  if ¬ isBowlingTable t then acc
  else
    let bowling_team := assignBowlingTeam t acc.2
    if skipTable cbt bowling_team then acc
    else
      let lst := t.rows.foldl processBowlerRow (acc.1.get bowling_team)
      (acc.1.set bowling_team lst,
       if lst ≠ [] then acc.2 + 1 else acc.2)              -- lines 730-732

/-- Lines 765-811, `_infer_missing_bowling_stats`: placeholder synthesis. -/
def inferMissingBowlingStats (t1 t2 : Option TeamEntry)
    (batting1 batting2 : Option (List BattingEntry)) (slots : BowlingSlots) :
    BowlingSlots :=
  let team1_score := pyLower (entryField t1 (·.score) [])
  let slots :=
    if team1_score ≠ [] ∧ ¬ pyIn (pstr "yet to bat") team1_score ∧
        (batting1.getD []) ≠ [] then
      slots.set .team2 [{ name := pstr "Bowling data not available",
                          overs := entryField t1 (·.overs) (pstr "0.0"),
                          maidens := pstr "0",
                          runs := entryField t1 (·.runs) (pstr "0"),
                          wickets := entryField t1 (·.wickets) (pstr "0"),
                          economy := pstr "0.00", inferred := true }]
    else slots
  let team2_score := pyLower (entryField t2 (·.score) [])
  if team2_score ≠ [] ∧ ¬ pyIn (pstr "yet to bat") team2_score ∧
      (batting2.getD []) ≠ [] then
    slots.set .team1 [{ name := pstr "Bowling data not available",
                        overs := entryField t2 (·.overs) (pstr "0.0"),
                        maidens := pstr "0",
                        runs := entryField t2 (·.runs) (pstr "0"),
                        wickets := entryField t2 (·.wickets) (pstr "0"),
                        economy := pstr "0.00", inferred := true }]
  else slots

/-- The bowling extractor body: clear, resolve the current bowling team,
fold the tables, then the placeholder fallback when nothing was found. -/
def bowlingCompute (d : Doc) (t1 t2 : Option TeamEntry) (status : PyStr)
    (batting1 batting2 : Option (List BattingEntry)) : BowlingSlots :=
  let cbt := determineCurrentBowlingTeam t1 t2 status
  let slots := (d.bowling_tables.foldl (processBowlingTable cbt) (([], []), 0)).1
  if slots.1 = [] ∧ slots.2 = [] then
    inferMissingBowlingStats t1 t2 batting1 batting2 slots
  else slots

def parse_bowling_stats (st : MatchData) (d : Doc) : MatchData :=
  let slots := bowlingCompute d st.team1 st.team2 st.match_info.status st.batting1 st.batting2
  { st with bowling1 := some slots.1, bowling2 := some slots.2 }

/-! ## `parse_commentary` (lines 813-885)

When no commentary items are found the extractor returns early and the
previous list is retained (lines 830-832); otherwise the list is reset
and rebuilt from at most the first 20 items. -/

/-- Lines 838-880: build the new commentary window. -/
def commWindow (items : List CommItem) : List CommentaryEntry :=
  (items.take 20).foldl
    (fun acc item =>
      match item.time_elem with
      | some te =>
        acc ++ [CommentaryEntry.general ((te.bold.map pyStrip).getD []) (pyLStrip te.rest)]
      | none =>
        match item.ball_elem with
        | some be =>
          acc ++ [CommentaryEntry.ball ((be.over.map pyStrip).getD [])
                    ((be.result.map pyStrip).getD [])
                    ((item.txt.map pyStrip).getD [])]
        | none => acc)
    []

/-- The commentary transformation. -/
def commCompute (d : Doc) (prior : List CommentaryEntry) : List CommentaryEntry :=
  if d.commentary_items.isEmpty then prior
  else commWindow d.commentary_items

def parse_commentary (st : MatchData) (d : Doc) : MatchData :=
  { st with commentary := commCompute d st.commentary }

/-! ## `validate_data` (lines 927-974) -/

/-- Keep the first occurrence of each bowler name, in first-seen order
(the rebuild `[bowlers[i] for i in unique_bowlers.values()]`). -/
def firstOccurrences (seen : List PyStr) : List BowlingEntry → List BowlingEntry
  | [] => []
  | e :: es =>
    if e.name ∈ seen then firstOccurrences seen es
    else e :: firstOccurrences (e.name :: seen) es

/-- Lines 945-962: deduplicate a bowling list (the list is only rebuilt
when a duplicate was counted). -/
def validateBowlingList (l : List BowlingEntry) : List BowlingEntry :=
  let dedup := firstOccurrences [] l
  if dedup.length = l.length then l else dedup

/-- Lines 964-972: close an unmatched parenthesis in a batting name. -/
def repairBatName (e : BattingEntry) : BattingEntry :=
  if pyIn (pstr "(") e.name ∧ ¬ pyIn (pstr ")") e.name then
    { e with name := e.name ++ [')'] }
  else e

def validate_data (st : MatchData) : MatchData :=
  { st with
    bowling1 := st.bowling1.map validateBowlingList,
    bowling2 := st.bowling2.map validateBowlingList,
    batting1 := st.batting1.map (List.map repairBatName),
    batting2 := st.batting2.map (List.map repairBatName) }

/-! ## `parse_html` (lines 887-904) and `update` (lines 906-925) -/

/-- `parse_html` on a parsed document: the five extractors in order,
each one's internal errors already caught at its own boundary. -/
def parse_html (st : MatchData) (d : Doc) : MatchData :=
  parse_commentary
    (parse_bowling_stats
      (parse_batting_stats
        (parse_teams_and_scores
          (parse_match_info st d) d) d) d) d

/-- One update cycle.  `fetched` is the fetch collaborator's result
(`none` = fetch failure: `update` returns `None` and leaves the state
unchanged); `now` is the timestamp string.  The `Except` layer carries
any exception that would escape to `update`'s caller. -/
def updateCycle (st : MatchData) (fetched : Option Doc) (now : PyStr) :
    Except MatchData (Option MatchData × MatchData) :=
  match fetched with
  | none => .ok (none, st)
  | some d =>
    let s1 := parse_html st d
    let s2 := { s1 with last_updated := now }
    let s3 := validate_data s2
    .ok (some s3, s3)

/-! # Theorems -/

/-! ## String-helper lemmas -/

theorem pySplitChar_ne_nil (c : Char) (l : PyStr) : pySplitChar c l ≠ [] := by
  induction l with
  | nil => simp [pySplitChar]
  | cons x xs ih =>
    simp only [pySplitChar]
    cases h : pySplitChar c xs with
    | nil => exact absurd h ih
    | cons r rs => by_cases hx : x = c <;> simp [hx]

theorem pySplitChar_not_mem {c : Char} {l : PyStr} (h : c ∉ l) :
    pySplitChar c l = [l] := by
  induction l with
  | nil => rfl
  | cons x xs ih =>
    have hx : x ≠ c := fun hxc => h (hxc ▸ List.mem_cons_self x xs)
    have hxs : c ∉ xs := fun hm => h (List.mem_cons_of_mem x hm)
    simp only [pySplitChar]
    rw [ih hxs]
    simp [hx]

theorem pySplitChar_append_cons {c : Char} {a : PyStr} (b : PyStr) (h : c ∉ a) :
    pySplitChar c (a ++ c :: b) = a :: pySplitChar c b := by
  induction a with
  | nil =>
    simp only [List.nil_append, pySplitChar]
    cases hb : pySplitChar c b with
    | nil => exact absurd hb (pySplitChar_ne_nil c b)
    | cons r rs => simp
  | cons x xs ih =>
    have hx : x ≠ c := fun hxc => h (hxc ▸ List.mem_cons_self x xs)
    have hxs : c ∉ xs := fun hm => h (List.mem_cons_of_mem x hm)
    rw [List.cons_append]
    simp only [pySplitChar]
    rw [ih hxs]
    simp [hx]

theorem dropWhile_eq_self_of_all {p : Char → Bool} {l : PyStr} (h : ∀ x ∈ l, ¬ p x) :
    l.dropWhile p = l := by
  cases l with
  | nil => rfl
  | cons x xs =>
    rw [List.dropWhile_cons_of_neg (by simpa using h x (List.mem_cons_self x xs))]

theorem pyStrip_of_no_ws {l : PyStr} (h : ∀ x ∈ l, ¬ x.isWhitespace) :
    pyStrip l = l := by
  unfold pyStrip
  rw [dropWhile_eq_self_of_all h, dropWhile_eq_self_of_all, List.reverse_reverse]
  exact fun x hx => h x (List.mem_reverse.mp hx)

theorem pyStrip_append_trailing_space {l : PyStr} (h : ∀ x ∈ l, ¬ x.isWhitespace) :
    pyStrip (l ++ [' ']) = l := by
  cases l with
  | nil => rfl
  | cons x xs =>
    have hx : ¬ x.isWhitespace := h x (List.mem_cons_self x xs)
    unfold pyStrip
    rw [List.cons_append, List.dropWhile_cons_of_neg (by simpa using hx),
      ← List.cons_append, List.reverse_append]
    simp only [List.reverse_cons, List.reverse_nil, List.nil_append, List.singleton_append]
    have hmem : ∀ y ∈ xs.reverse ++ [x], ¬ y.isWhitespace := by
      intro y hy
      rcases List.mem_append.mp hy with h1 | h2
      · exact h y (List.mem_cons_of_mem x (List.mem_reverse.mp h1))
      · rw [List.mem_singleton.mp h2]; exact hx
    rw [List.dropWhile_cons_of_pos (by simp), dropWhile_eq_self_of_all hmem,
      ← List.reverse_cons, List.reverse_reverse]

theorem pyRemoveChar_of_not_mem {c : Char} {l : PyStr} (h : c ∉ l) :
    pyRemoveChar c l = l := by
  unfold pyRemoveChar
  exact List.filter_eq_self.mpr (fun a ha => by
    simp only [ne_eq, decide_eq_true_eq]
    exact fun hac => h (hac ▸ ha))

/-! ## C9: score-string parsing -/

theorem pyRemoveChar_append (c : Char) (a b : PyStr) :
    pyRemoveChar c (a ++ b) = pyRemoveChar c a ++ pyRemoveChar c b := by
  simp [pyRemoveChar]

/-- C9.  For every score string of the form `"R/W (O)"` (with `R`, `W`
free of whitespace, `(` and `/`, and `O` free of whitespace, `(` and
`)`), the team/score extractor's parse (lines 195-204 of `paste.py`)
yields `runs = R`, `wickets = W`, `overs = O`; and for `"R (O)"` with no
`/` separator it yields `runs = R` and the default `wickets = "0"`. -/
theorem C9_score_string_parsing (R W O : PyStr)
    (hR : ∀ c ∈ R, ¬ c.isWhitespace ∧ c ≠ '(' ∧ c ≠ '/')
    (hW : ∀ c ∈ W, ¬ c.isWhitespace ∧ c ≠ '(' ∧ c ≠ '/')
    (hO : ∀ c ∈ O, ¬ c.isWhitespace ∧ c ≠ '(' ∧ c ≠ ')') :
    parseScoreParts (R ++ ['/'] ++ W ++ [' ', '('] ++ O ++ [')'])
      = some (R ++ ['/'] ++ W, R, W, O) ∧
    parseScoreParts (R ++ [' ', '('] ++ O ++ [')'])
      = some (R, R, pstr "0", O) := by
  have hOp : '(' ∉ O ++ [')'] := by
    intro hm
    rcases List.mem_append.mp hm with h1 | h2
    · exact (hO _ h1).2.1 rfl
    · simp at h2
  have hRW_nws : ∀ x ∈ R ++ '/' :: W, ¬ x.isWhitespace := by
    intro x hx
    rcases List.mem_append.mp hx with h1 | h2
    · exact (hR _ h1).1
    · rcases List.mem_cons.mp h2 with h3 | h4
      · subst h3; decide
      · exact (hW _ h4).1
  have hOclean : pyStrip (pyRemoveChar ')' (O ++ [')'])) = O := by
    rw [pyRemoveChar_append, pyRemoveChar_of_not_mem (fun hm => (hO _ hm).2.2 rfl)]
    have : pyRemoveChar ')' [')'] = [] := rfl
    rw [this, List.append_nil, pyStrip_of_no_ws (fun x hx => (hO _ hx).1)]
  constructor
  · -- "R/W (O)"
    have e1 : R ++ ['/'] ++ W ++ [' ', '('] ++ O ++ [')']
        = (R ++ '/' :: (W ++ [' '])) ++ '(' :: (O ++ [')']) := by
      simp
    have ha : '(' ∉ R ++ '/' :: (W ++ [' ']) := by
      intro hm
      rcases List.mem_append.mp hm with h1 | h2
      · exact (hR _ h1).2.1 rfl
      · rcases List.mem_cons.mp h2 with h3 | h4
        · exact absurd h3.symm (by decide)
        · rcases List.mem_append.mp h4 with h5 | h6
          · exact (hW _ h5).2.1 rfl
          · simp at h6
    have hsplit : pySplitChar '(' (R ++ ['/'] ++ W ++ [' ', '('] ++ O ++ [')'])
        = [R ++ '/' :: (W ++ [' ']), O ++ [')']] := by
      rw [e1, pySplitChar_append_cons _ ha, pySplitChar_not_mem hOp]
    have hscore : pyStrip (R ++ '/' :: (W ++ [' '])) = R ++ '/' :: W := by
      have e2 : R ++ '/' :: (W ++ [' ']) = (R ++ '/' :: W) ++ [' '] := by simp
      rw [e2, pyStrip_append_trailing_space hRW_nws]
    have hmem : ('/' : Char) ∈ R ++ '/' :: W := by simp
    have hsplit2 : pySplitChar '/' (R ++ '/' :: W) = [R, W] := by
      rw [pySplitChar_append_cons _ (fun hm => (hR _ hm).2.2 rfl),
        pySplitChar_not_mem (fun hm => (hW _ hm).2.2 rfl)]
    unfold parseScoreParts
    rw [hsplit]
    simp only [List.headD_cons, List.getD_cons_succ, List.getD_cons_zero, List.length_cons,
      List.length_nil]
    rw [hscore]
    simp [hmem, hsplit2, hOclean]
  · -- "R (O)"
    have e1 : R ++ [' ', '('] ++ O ++ [')'] = (R ++ [' ']) ++ '(' :: (O ++ [')']) := by
      simp
    have ha : '(' ∉ R ++ [' '] := by
      intro hm
      rcases List.mem_append.mp hm with h1 | h2
      · exact (hR _ h1).2.1 rfl
      · simp at h2
    have hsplit : pySplitChar '(' (R ++ [' ', '('] ++ O ++ [')'])
        = [R ++ [' '], O ++ [')']] := by
      rw [e1, pySplitChar_append_cons _ ha, pySplitChar_not_mem hOp]
    have hscore : pyStrip (R ++ [' ']) = R :=
      pyStrip_append_trailing_space (fun x hx => (hR _ hx).1)
    have hnmem : ('/' : Char) ∉ R := fun hm => (hR _ hm).2.2 rfl
    unfold parseScoreParts
    rw [hsplit]
    simp only [List.headD_cons, List.getD_cons_succ, List.getD_cons_zero, List.length_cons,
      List.length_nil]
    rw [hscore]
    simp [hnmem, hOclean]

/-- Witness for C9 at `"185/6 (20.0)"` and `"185 (20.0)"`. -/
theorem C9_witness :
    parseScoreParts (pstr "185" ++ ['/'] ++ pstr "6" ++ [' ', '('] ++ pstr "20.0" ++ [')'])
      = some (pstr "185" ++ ['/'] ++ pstr "6", pstr "185", pstr "6", pstr "20.0") ∧
    parseScoreParts (pstr "185" ++ [' ', '('] ++ pstr "20.0" ++ [')'])
      = some (pstr "185", pstr "185", pstr "0", pstr "20.0") :=
  C9_score_string_parsing (pstr "185") (pstr "6") (pstr "20.0")
    (by decide) (by decide) (by decide)

/-! ## C10: innings-completion flag -/

theorem pyFloat?_nil : pyFloat? [] = none := rfl

/-- C10.  For every team whose score was numerically parsed (the
innings-completion computation of lines 206-213 produced a value rather
than raising), if the parsed wickets string is `"10"` or the numeric
value of the parsed overs' first token is at least `20.0`, the computed
`innings_complete` flag is `true` (and line 215 stores it on the team). -/
theorem C10_innings_complete_flag (overs wickets : PyStr) (b : Bool)
    (hparsed : inningsCompleteOf overs wickets = some b)
    (htrig : wickets = pstr "10" ∨ ∃ q : ℚ, pyFloat? (pyWsSplitHead overs) = some q ∧ 20 ≤ q) :
    b = true := by
  by_cases hov : overs = []
  · rcases htrig with hw | ⟨q, hq, _⟩
    · subst hov
      simp [inningsCompleteOf, hw] at hparsed
      exact hparsed
    · subst hov
      rw [show pyWsSplitHead [] = [] from rfl, pyFloat?_nil] at hq
      exact absurd hq (by simp)
  · by_cases h20 : pyIn (pstr "20") overs
    · simp [inningsCompleteOf, hov, h20] at hparsed
      exact hparsed
    · cases hfq : pyFloat? (pyWsSplitHead overs) with
      | none =>
        simp [inningsCompleteOf, hov, h20, hfq] at hparsed
      | some q' =>
        simp [inningsCompleteOf, hov, h20, hfq] at hparsed
        rcases htrig with hw | ⟨q, hq, hq20⟩
        · rw [← hparsed, hw]
          simp
        · rw [hfq] at hq
          have hqq : q' = q := by injection hq
          rw [← hparsed, hqq]
          simp [hq20]

/-- Witness for C10: `overs = "20.0"`, `wickets = "10"`. -/
theorem C10_witness :
    inningsCompleteOf (pstr "20.0") (pstr "10") = some true := by
  have hp : inningsCompleteOf (pstr "20.0") (pstr "10")
      = some ((inningsCompleteOf (pstr "20.0") (pstr "10")).getD false) := by decide
  have h := C10_innings_complete_flag (pstr "20.0") (pstr "10") _ hp (.inl rfl)
  rw [hp, h]

/-! ## C2: the update cycle never propagates an extractor error -/

/-- C2.  For every prior state, every fetch result and every timestamp,
the update cycle completes with an `ok` result: no error originating
inside an extractor reaches `update`'s caller, because every extractor
body runs behind its own catch (`Except.payload`) inside `parse_html`. -/
theorem C2_update_always_completes (st : MatchData) (fetched : Option Doc) (now : PyStr) :
    ∃ r, updateCycle st fetched now = .ok r := by
  cases fetched <;> exact ⟨_, rfl⟩

/-! ## C5: commentary window -/

/-- An empty `match_info` (the `__init__` values). -/
def emptyMatchInfo : MatchInfo := ⟨[], [], [], [], [], none, none⟩

/-- A document in which every selector came back empty. -/
def emptyDoc : Doc := ⟨none, none, none, none, none, [], [], [], []⟩

/-- A prior state holding one commentary entry from an earlier update. -/
def staleCommState : MatchData :=
  { match_info := emptyMatchInfo, team1 := none, team2 := none,
    batting1 := none, batting2 := none, bowling1 := none, bowling2 := none,
    commentary := [.general (pstr "18:00") (pstr "earlier update note")],
    last_updated := [] }

/-- A document yielding exactly one commentary item. -/
def oneCommDoc : Doc :=
  { emptyDoc with
    commentary_items := [⟨some ⟨some (pstr "19:00"), pstr " fresh note"⟩, none, none⟩] }

/-- Counterexample to C5 as stated: on a document with no commentary
items the extractor returns early (lines 830-832), so the list is *not*
a full replacement computed from the current document (which would be
empty) — the prior list survives. -/
theorem C5_counterexample :
    (parse_commentary staleCommState emptyDoc).commentary = staleCommState.commentary ∧
    staleCommState.commentary ≠ [] ∧
    commWindow emptyDoc.commentary_items = [] := by decide

theorem foldl_step_length_le {α β : Type _} (f : List β → α → List β)
    (hf : ∀ acc x, (f acc x).length ≤ acc.length + 1) :
    ∀ (l : List α) (acc : List β), (l.foldl f acc).length ≤ acc.length + l.length := by
  intro l
  induction l with
  | nil => intro acc; simp
  | cons x xs ih =>
    intro acc
    simp only [List.foldl_cons, List.length_cons]
    calc (xs.foldl f (f acc x)).length ≤ (f acc x).length + xs.length := ih _
      _ ≤ acc.length + (xs.length + 1) := by have := hf acc x; omega

theorem commWindow_length_le (items : List CommItem) : (commWindow items).length ≤ 20 := by
  unfold commWindow
  have h := foldl_step_length_le
    (fun acc item =>
      match item.time_elem with
      | some te =>
        acc ++ [CommentaryEntry.general ((te.bold.map pyStrip).getD []) (pyLStrip te.rest)]
      | none =>
        match item.ball_elem with
        | some be =>
          acc ++ [CommentaryEntry.ball ((be.over.map pyStrip).getD [])
                    ((be.result.map pyStrip).getD [])
                    ((item.txt.map pyStrip).getD [])]
        | none => acc)
    (by
      intro acc x
      obtain ⟨te, be, tx⟩ := x
      cases te <;> cases be <;> simp)
    (items.take 20) []
  have h2 : (items.take 20).length ≤ 20 := by
    rw [List.length_take]
    exact min_le_left _ _
  exact le_trans h (by simp [h2])

/-- C5 (amended).  After any single update the commentary list has at
most 20 entries provided it had at most 20 before (and the parsed window
itself never exceeds 20); when the document yields at least one
commentary item the list is fully replaced by the window computed from
the current document; when it yields none the previous list is retained
unchanged — the list is never appended to. -/
theorem C5_commentary_bounded_window :
    (∀ items : List CommItem, (commWindow items).length ≤ 20) ∧
    (∀ (st : MatchData) (d : Doc), d.commentary_items ≠ [] →
        (parse_commentary st d).commentary = commWindow d.commentary_items) ∧
    (∀ (st : MatchData) (d : Doc), d.commentary_items = [] →
        (parse_commentary st d).commentary = st.commentary) ∧
    (∀ (st : MatchData) (d : Doc), st.commentary.length ≤ 20 →
        (parse_commentary st d).commentary.length ≤ 20) := by
  refine ⟨commWindow_length_le, ?_, ?_, ?_⟩
  · intro st d h
    simp [parse_commentary, commCompute, h]
  · intro st d h
    simp [parse_commentary, commCompute, h]
  · intro st d h
    by_cases he : d.commentary_items = []
    · simpa [parse_commentary, commCompute, he] using h
    · simp [parse_commentary, commCompute, he]
      exact commWindow_length_le _

/-- Witness for C5 at a concrete prior state and one-item document. -/
theorem C5_witness :
    (parse_commentary staleCommState oneCommDoc).commentary
        = commWindow oneCommDoc.commentary_items ∧
    (parse_commentary staleCommState oneCommDoc).commentary.length ≤ 20 ∧
    (parse_commentary staleCommState emptyDoc).commentary = staleCommState.commentary := by
  refine ⟨C5_commentary_bounded_window.2.1 _ _ (by decide),
    C5_commentary_bounded_window.2.2.2 _ _ (by decide),
    C5_commentary_bounded_window.2.2.1 _ _ (by decide)⟩

/-! ## C7: completed match leaves the bowling-team role unset -/

/-- C7.  When neither team's score reads "yet to bat" and the status
text carries a completion marker (or a team's `won` flag is set), the
role resolver (lines 499-548) leaves `current_bowling_team` unset, the
per-table skip test (line 653) never fires, and every table that
qualifies as a bowling table is processed. -/
theorem C7_completed_match_processes_all_tables (t1 t2 : Option TeamEntry) (status : PyStr)
    (h1 : pyIn (pstr "yet to bat") (pyLower (entryField t1 (·.score) [])) = false)
    (h2 : pyIn (pstr "yet to bat") (pyLower (entryField t2 (·.score) [])) = false)
    (h3 : pyIn (pstr "won by") (pyLower status) = true ∨
          pyIn (pstr "match tied") (pyLower status) = true ∨
          pyIn (pstr "won the match") (pyLower status) = true ∨
          pyIn (pstr "match over") (pyLower status) = true ∨
          (t1.bind (·.won)).getD false = true ∨
          (t2.bind (·.won)).getD false = true) :
    determineCurrentBowlingTeam t1 t2 status = none ∧
    (∀ k : TeamKey, skipTable (determineCurrentBowlingTeam t1 t2 status) k = false) ∧
    (∀ (acc : BowlingSlots × Nat) (t : BowlingTable), isBowlingTable t = true →
      processBowlingTable (determineCurrentBowlingTeam t1 t2 status) acc t =
        (acc.1.set (assignBowlingTeam t acc.2)
           (t.rows.foldl processBowlerRow (acc.1.get (assignBowlingTeam t acc.2))),
         if t.rows.foldl processBowlerRow (acc.1.get (assignBowlingTeam t acc.2)) ≠ []
           then acc.2 + 1 else acc.2)) := by
  have hdet : determineCurrentBowlingTeam t1 t2 status = none := by
    rcases h3 with h | h | h | h | h | h <;>
      simp [determineCurrentBowlingTeam, h1, h2, h]
  refine ⟨hdet, ?_, ?_⟩
  · intro k
    rw [hdet]
    rfl
  · intro acc t ht
    rw [hdet]
    obtain ⟨slots, bc⟩ := acc
    simp [processBowlingTable, ht, skipTable]

/-- A completed-innings team entry (team that batted first). -/
def doneTeam1 : TeamEntry :=
  { freshEntry (pstr "Mumbai Indians") with
    score := some (pstr "185/6"), runs := some (pstr "185"),
    wickets := some (pstr "6"), overs := some (pstr "20.0"),
    innings_complete := some true }

/-- A chasing team entry that has finished the chase. -/
def doneTeam2 : TeamEntry :=
  { freshEntry (pstr "Chennai Super Kings") with
    score := some (pstr "186/4"), runs := some (pstr "186"),
    wickets := some (pstr "4"), overs := some (pstr "19.2"),
    innings_complete := some false }

/-- Witness for C7: a finished match ("won by" in the status). -/
theorem C7_witness :
    determineCurrentBowlingTeam (some doneTeam1) (some doneTeam2)
        (pstr "Chennai Super Kings won by 6 wickets") = none ∧
    skipTable (determineCurrentBowlingTeam (some doneTeam1) (some doneTeam2)
        (pstr "Chennai Super Kings won by 6 wickets")) .team1 = false ∧
    skipTable (determineCurrentBowlingTeam (some doneTeam1) (some doneTeam2)
        (pstr "Chennai Super Kings won by 6 wickets")) .team2 = false := by
  have h := C7_completed_match_processes_all_tables (some doneTeam1) (some doneTeam2)
    (pstr "Chennai Super Kings won by 6 wickets") (by decide) (by decide)
    (.inl (by decide))
  exact ⟨h.1, h.2.1 .team1, h.2.1 .team2⟩

/-! ## C4: "yet to bat" handling -/

theorem BattingOut.get_set_ne (o : BattingOut) (k k' : TeamKey)
    (v : Option (List BattingEntry)) (h : k ≠ k') : (o.set k v).get k' = o.get k' := by
  cases k <;> cases k' <;> simp_all [BattingOut.set, BattingOut.get]

theorem BattingOut.get_innings (o : BattingOut) (v : Option PyStr) (k : TeamKey) :
    ({ o with innings := v } : BattingOut).get k = o.get k := by
  cases k <;> rfl

theorem BowlingSlots.get_set_out (s : BowlingSlots) (k k' : TeamKey)
    (v : List BowlingEntry) (h : k ≠ k') : (s.set k v).get k' = s.get k' := by
  cases k <;> cases k' <;> simp_all [BowlingSlots.set, BowlingSlots.get]



/-- The `batting_stats` outcome an extractor result carries, whether the
body finished or raised. -/
def battingOutOf : Except BattingOut (BattingOut × Nat) → BattingOut
  | .ok (o, _) => o
  | .error o => o

/-- `battingTableBody` only writes the slot of the team it was given. -/
theorem battingTableBody_slot_ne (team_key k : TeamKey) (hne : team_key ≠ k)
    (team_data : Option TeamEntry) (o : BattingOut) (bc : Nat) (table : BattingTable) :
    (battingOutOf (battingTableBody team_key team_data o bc table)).get k = o.get k := by
  have hsetgen : ∀ (x : BattingOut) v, (x.set team_key v).get k = x.get k :=
    fun x v => BattingOut.get_set_ne x team_key k v hne
  cases hint : pyInt? (entryField team_data (·.wickets) (pstr "0")) with
  | none => simp [battingTableBody, hint, battingOutOf, hsetgen]
  | some wd =>
    by_cases hgt : wd > (countOut (table.rows.enum.filterMap (fun p => parseBatRow p.1 p.2)) : Int)
    · cases hmap : allRunsParsed (table.rows.enum.filterMap (fun p => parseBatRow p.1 p.2)) with
      | none => simp [battingTableBody, hint, hgt, hmap, battingOutOf, hsetgen]
      | some v =>
        by_cases hov : (entryField team_data (·.overs) [] ≠ [] ∧
            pyIn (pstr "20") (entryField team_data (·.overs) []) = true)
        · simp [battingTableBody, hint, hgt, hmap, hov, battingOutOf,
            BattingOut.get_innings, hsetgen]
        · simp [battingTableBody, hint, hgt, hmap, hov, battingOutOf, hsetgen]
    · by_cases hov : (entryField team_data (·.overs) [] ≠ [] ∧
          pyIn (pstr "20") (entryField team_data (·.overs) []) = true)
      · simp [battingTableBody, hint, hgt, hov, battingOutOf,
          BattingOut.get_innings, hsetgen]
      · simp [battingTableBody, hint, hgt, hov, battingOutOf, hsetgen]

/-- A batting table never creates the batting list of a team whose
recorded score contains "yet to bat" (the skip at lines 287-289 fires
before the slot is created, and other tables write the other slot). -/
theorem processBattingTable_ytb_slot (bf bs : TeamKey) (t1 t2 : Option TeamEntry) (k : TeamKey)
    (hk : pyIn (pstr "yet to bat") (pyLower (entryField (slotOf k t1 t2) (·.score) [])) = true)
    (acc : BattingOut × Nat) (table : BattingTable) (ha : acc.1.get k = none) :
    (battingOutOf (processBattingTable bf bs t1 t2 acc table)).get k = none := by
  obtain ⟨o0, bc0⟩ := acc
  cases hh : table.header_text with
  | none => simpa [processBattingTable, hh, battingOutOf] using ha
  | some ht =>
    by_cases hB : pyIn (pstr "BATTERS") ht
    · by_cases hkk : (if bc0 = 0 then bf else bs) = k
      · simp only [processBattingTable, hh]
        rw [if_neg (by simp [hB]), hkk, if_pos hk]
        simpa [battingOutOf] using ha
      · by_cases hytb : pyIn (pstr "yet to bat")
            (pyLower (entryField (slotOf (if bc0 = 0 then bf else bs) t1 t2) (·.score) [])) = true
        · simp only [processBattingTable, hh]
          rw [if_neg (by simp [hB]), if_pos hytb]
          simpa [battingOutOf] using ha
        · simp only [processBattingTable, hh]
          rw [if_neg (by simp [hB]), if_neg hytb,
            battingTableBody_slot_ne (if bc0 = 0 then bf else bs) k hkk]
          exact ha
    · simp only [processBattingTable, hh]
      rw [if_pos (by simp [hB])]
      simpa [battingOutOf] using ha

/-- Across the whole table loop, a "yet to bat" team's batting slot is
never created. -/
theorem processBattingTables_ytb_slot (bf bs : TeamKey) (t1 t2 : Option TeamEntry) (k : TeamKey)
    (hk : pyIn (pstr "yet to bat") (pyLower (entryField (slotOf k t1 t2) (·.score) [])) = true) :
    ∀ (tables : List BattingTable) (acc : BattingOut × Nat), acc.1.get k = none →
      (battingOutOf (processBattingTables bf bs t1 t2 acc tables)).get k = none := by
  intro tables
  induction tables with
  | nil =>
    intro acc ha
    obtain ⟨o0, bc0⟩ := acc
    simpa [processBattingTables, battingOutOf] using ha
  | cons t ts ih =>
    intro acc ha
    have h := processBattingTable_ytb_slot bf bs t1 t2 k hk acc t ha
    cases hpt : processBattingTable bf bs t1 t2 acc t with
    | error o =>
      rw [hpt] at h
      simp only [processBattingTables, hpt]
      simpa [battingOutOf] using h
    | ok acc1 =>
      rw [hpt] at h
      obtain ⟨o1, bc1⟩ := acc1
      simp only [processBattingTables, hpt]
      exact ih (o1, bc1) (by simpa [battingOutOf] using h)

/-- The caught batting outcome never holds a list for a "yet to bat"
team. -/
theorem battingCompute_ytb_none (d : Doc) (t1 t2 : Option TeamEntry) (status : PyStr)
    (k : TeamKey)
    (hk : pyIn (pstr "yet to bat") (pyLower (entryField (slotOf k t1 t2) (·.score) [])) = true) :
    (battingCompute d t1 t2 status).get k = none := by
  unfold battingCompute battingComputeE
  set bf : TeamKey := if (pyLower (entryField t2 (·.name) []) ≠ [] ∧
      pyIn (pyLower (entryField t2 (·.name) [])) (pyLower status) = true ∧
      pyIn (pstr "elected to field") (pyLower status) = true) then .team2 else .team1 with hbf
  set bs : TeamKey := if (pyLower (entryField t2 (·.name) []) ≠ [] ∧
      pyIn (pyLower (entryField t2 (·.name) [])) (pyLower status) = true ∧
      pyIn (pstr "elected to field") (pyLower status) = true) then .team1 else .team2 with hbs
  have h := processBattingTables_ytb_slot bf bs t1 t2 k hk d.batting_tables
    (⟨none, none, none⟩, 0) (by cases k <;> rfl)
  cases hpt : processBattingTables bf bs t1 t2 (⟨none, none, none⟩, 0) d.batting_tables with
  | error o =>
    rw [hpt] at h
    simpa [Except.payload, hpt, battingOutOf] using h
  | ok acc =>
    rw [hpt] at h
    obtain ⟨o1, bc1⟩ := acc
    simpa [Except.payload, hpt, battingOutOf] using h

/-- While a definite `current_bowling_team` is set, tables assigned to
the other side are skipped, so that side's bowling slot never grows. -/
theorem foldl_bowling_slot_empty (c k : TeamKey) (hne : k ≠ c) :
    ∀ (tables : List BowlingTable) (acc : BowlingSlots × Nat), acc.1.get k = [] →
      ((tables.foldl (processBowlingTable (some c)) acc).1.get k) = [] := by
  intro tables
  induction tables with
  | nil => intro acc ha; simpa using ha
  | cons t ts ih =>
    intro acc ha
    rw [List.foldl_cons]
    apply ih
    by_cases hbt : isBowlingTable t = true
    · by_cases hsk : skipTable (some c) (assignBowlingTeam t acc.2) = true
      · simpa [processBowlingTable, hbt, hsk] using ha
      · have hac : assignBowlingTeam t acc.2 = c := by
          simpa [skipTable] using hsk
        have hnk : assignBowlingTeam t acc.2 ≠ k := by
          rw [hac]; exact fun hck => hne hck.symm
        simp only [processBowlingTable, hbt, hsk]
        rw [if_neg (by simp), if_neg (by simp [hsk])]
        rw [BowlingSlots.get_set_out _ _ _ _ hnk]
        exact ha
    · simpa [processBowlingTable, hbt] using ha

/-- Writing one bowling slot leaves the other unchanged. -/
@[simp] theorem BowlingSlots.get_set_t2_t1 (s : BowlingSlots) (v : List BowlingEntry) :
    (s.set .team2 v).get .team1 = s.get .team1 := rfl

@[simp] theorem BowlingSlots.get_set_t1_t2 (s : BowlingSlots) (v : List BowlingEntry) :
    (s.set .team1 v).get .team2 = s.get .team2 := rfl

/-- C4 support: with team 2 "yet to bat", the placeholder synthesis
cannot create bowling data for team 1. -/
theorem inferMissing_ytb_team2 (t1 t2 : Option TeamEntry)
    (batting1 batting2 : Option (List BattingEntry)) (slots : BowlingSlots)
    (hytb : pyIn (pstr "yet to bat") (pyLower (entryField t2 (·.score) [])) = true) :
    (inferMissingBowlingStats t1 t2 batting1 batting2 slots).get .team1 = slots.get .team1 := by
  have hkill : ¬ (pyLower (entryField t2 (·.score) []) ≠ [] ∧
      ¬ pyIn (pstr "yet to bat") (pyLower (entryField t2 (·.score) [])) = true ∧
      (batting2.getD []) ≠ []) := by simp [hytb]
  simp only [inferMissingBowlingStats]
  rw [if_neg hkill]
  split <;> simp

/-- C4 support: with team 1 "yet to bat", the placeholder synthesis
cannot create bowling data for team 2. -/
theorem inferMissing_ytb_team1 (t1 t2 : Option TeamEntry)
    (batting1 batting2 : Option (List BattingEntry)) (slots : BowlingSlots)
    (hytb : pyIn (pstr "yet to bat") (pyLower (entryField t1 (·.score) [])) = true) :
    (inferMissingBowlingStats t1 t2 batting1 batting2 slots).get .team2 = slots.get .team2 := by
  have hkill : ¬ (pyLower (entryField t1 (·.score) []) ≠ [] ∧
      ¬ pyIn (pstr "yet to bat") (pyLower (entryField t1 (·.score) [])) = true ∧
      (batting1.getD []) ≠ []) := by simp [hytb]
  simp only [inferMissingBowlingStats]
  rw [if_neg hkill]
  split <;> simp

/-- With team 2 "yet to bat", team 2 is designated the current bowling
team and team 1's bowling slot comes out empty. -/
theorem bowlingCompute_ytb2 (d : Doc) (t1 t2 : Option TeamEntry) (status : PyStr)
    (b1 b2 : Option (List BattingEntry))
    (hytb : pyIn (pstr "yet to bat") (pyLower (entryField t2 (·.score) [])) = true) :
    determineCurrentBowlingTeam t1 t2 status = some .team2 ∧
    (bowlingCompute d t1 t2 status b1 b2).1 = [] := by
  have hdet : determineCurrentBowlingTeam t1 t2 status = some .team2 := by
    simp [determineCurrentBowlingTeam, hytb]
  refine ⟨hdet, ?_⟩
  have hfold : (d.bowling_tables.foldl (processBowlingTable (some .team2)) (([], []), 0)).1.1 = [] :=
    foldl_bowling_slot_empty .team2 .team1 (by decide) d.bowling_tables (([], []), 0) rfl
  simp only [bowlingCompute, hdet]
  by_cases hempty :
      ((d.bowling_tables.foldl (processBowlingTable (some TeamKey.team2)) (([], []), 0)).1.1 = [] ∧
       (d.bowling_tables.foldl (processBowlingTable (some TeamKey.team2)) (([], []), 0)).1.2 = [])
  · rw [if_pos hempty]
    exact (inferMissing_ytb_team2 t1 t2 b1 b2 _ hytb).trans hfold
  · rw [if_neg hempty]
    exact hfold

/-- With team 1 (and not team 2) "yet to bat", team 1 is designated the
current bowling team and team 2's bowling slot comes out empty. -/
theorem bowlingCompute_ytb1 (d : Doc) (t1 t2 : Option TeamEntry) (status : PyStr)
    (b1 b2 : Option (List BattingEntry))
    (h2 : pyIn (pstr "yet to bat") (pyLower (entryField t2 (·.score) [])) = false)
    (h1 : pyIn (pstr "yet to bat") (pyLower (entryField t1 (·.score) [])) = true) :
    determineCurrentBowlingTeam t1 t2 status = some .team1 ∧
    (bowlingCompute d t1 t2 status b1 b2).2 = [] := by
  have hdet : determineCurrentBowlingTeam t1 t2 status = some .team1 := by
    simp [determineCurrentBowlingTeam, h1, h2]
  refine ⟨hdet, ?_⟩
  have hfold : (d.bowling_tables.foldl (processBowlingTable (some .team1)) (([], []), 0)).1.2 = [] :=
    foldl_bowling_slot_empty .team1 .team2 (by decide) d.bowling_tables (([], []), 0) rfl
  simp only [bowlingCompute, hdet]
  by_cases hempty :
      ((d.bowling_tables.foldl (processBowlingTable (some TeamKey.team1)) (([], []), 0)).1.1 = [] ∧
       (d.bowling_tables.foldl (processBowlingTable (some TeamKey.team1)) (([], []), 0)).1.2 = [])
  · rw [if_pos hempty]
    exact (inferMissing_ytb_team1 t1 t2 b1 b2 _ h1).trans hfold
  · rw [if_neg hempty]
    exact hfold

/-- C4 (amended).  A team whose extracted score text contains "yet to
bat" (case-insensitively) has `score="Yet to bat"`, `runs="Yet to bat"`,
`wickets="0"` and empty overs recorded, its innings-completion flag is
never set by the score step, and no batting-entry list is created for
its slot.  For bowling, the yet-to-bat team is *designated the current
bowling team*: the opponent's tables are skipped and the opponent's
bowling slot stays empty, while the yet-to-bat team's own bowling
entries are still extracted. -/
theorem C4_yet_to_bat :
    (∀ (sec : TeamSection) (e0 : Option TeamEntry) (se : ClassedElem) (e' : Option TeamEntry),
      sec.score_elem = some se →
      pyIn (pstr "yet to bat") (pyLower (pyStrip se.text)) = true →
      teamSlotStep sec e0 = .ok e' →
      ∃ x, e' = some x ∧ x.score = some (pstr "Yet to bat") ∧
        x.runs = some (pstr "Yet to bat") ∧ x.wickets = some (pstr "0") ∧
        x.overs = some [] ∧
        x.innings_complete = (nameStep sec e0).bind (·.innings_complete)) ∧
    (∀ (d : Doc) (t1 t2 : Option TeamEntry) (status : PyStr) (k : TeamKey),
      pyIn (pstr "yet to bat") (pyLower (entryField (slotOf k t1 t2) (·.score) [])) = true →
      (battingCompute d t1 t2 status).get k = none) ∧
    (∀ (d : Doc) (t1 t2 : Option TeamEntry) (status : PyStr)
       (b1 b2 : Option (List BattingEntry)),
      pyIn (pstr "yet to bat") (pyLower (entryField t2 (·.score) [])) = true →
      determineCurrentBowlingTeam t1 t2 status = some .team2 ∧
      (bowlingCompute d t1 t2 status b1 b2).1 = []) ∧
    (∀ (d : Doc) (t1 t2 : Option TeamEntry) (status : PyStr)
       (b1 b2 : Option (List BattingEntry)),
      pyIn (pstr "yet to bat") (pyLower (entryField t2 (·.score) [])) = false →
      pyIn (pstr "yet to bat") (pyLower (entryField t1 (·.score) [])) = true →
      determineCurrentBowlingTeam t1 t2 status = some .team1 ∧
      (bowlingCompute d t1 t2 status b1 b2).2 = []) := by
  refine ⟨?_, battingCompute_ytb_none, bowlingCompute_ytb2, bowlingCompute_ytb1⟩
  intro sec e0 se e' hse hy hstep
  simp only [teamSlotStep, hse, hy, if_true] at hstep
  cases hns : nameStep sec e0 with
  | none =>
    rw [hns] at hstep
    cases hstep
  | some x0 =>
    rw [hns] at hstep
    cases hstep
    exact ⟨applyYtb x0, rfl, rfl, rfl, rfl, rfl, rfl⟩

/-- A team entry as `parse_teams_and_scores` records it for a side that
has not batted. -/
def ytbTeam : TeamEntry :=
  { freshEntry (pstr "Chennai Super Kings") with
    score := some (pstr "Yet to bat"), runs := some (pstr "Yet to bat"),
    wickets := some (pstr "0"), overs := some [] }

/-- A team entry for the side currently batting. -/
def battedTeam : TeamEntry :=
  { freshEntry (pstr "Mumbai Indians") with
    score := some (pstr "120/4"), runs := some (pstr "120"),
    wickets := some (pstr "4"), overs := some (pstr "12.3"),
    innings_complete := some false }

/-- A bowling table found under the second-tab context, which the
extractor assigns to `team1`. -/
def secondTabBowlingTable : BowlingTable :=
  { header_cells := some [pstr "BOWLERS", pstr "O", pstr "M", pstr "R", pstr "W", pstr "ECO"],
    first_row_text := some (pstr "BOWLERS O M R W ECO"),
    tab_context := some (pstr "ckt_fltr_1"),
    rows := [⟨some ⟨some (pstr "Deepak Chahar"), pstr "Deepak Chahar"⟩,
      [pstr "Deepak Chahar", pstr "4.0", pstr "0", pstr "25", pstr "2", pstr "6.25"]⟩] }

/-- A document holding only that bowling table. -/
def ytbBowlingDoc : Doc :=
  { emptyDoc with bowling_tables := [secondTabBowlingTable] }

/-- Counterexample to C4 as stated: with team 1 yet to bat, team 1 is
the *current bowling team*, so a table assigned to team 1 is processed
and team 1's bowling list ends up non-empty — the yet-to-bat team is not
excluded from bowling extraction. -/
theorem C4_counterexample :
    pyIn (pstr "yet to bat") (pyLower (entryField (some ytbTeam) (·.score) [])) = true ∧
    (bowlingCompute ytbBowlingDoc (some ytbTeam) (some battedTeam) [] none none).1 ≠ [] := by
  decide

/-- The team section of a side that has not batted. -/
def ytbSection : TeamSection :=
  ⟨some ⟨pstr "Chennai Super Kings", []⟩, some ⟨pstr "Yet to bat", []⟩⟩

/-- Witness for C4 at concrete inputs. -/
theorem C4_witness :
    (battingCompute ytbBowlingDoc (some battedTeam) (some ytbTeam) []).get .team2 = none ∧
    determineCurrentBowlingTeam (some battedTeam) (some ytbTeam) [] = some .team2 ∧
    (bowlingCompute ytbBowlingDoc (some battedTeam) (some ytbTeam) [] none none).1 = [] ∧
    (∃ x, (some (applyYtb (freshEntry (pstr "Chennai Super Kings"))) : Option TeamEntry) = some x ∧
      x.score = some (pstr "Yet to bat") ∧ x.innings_complete = none) := by
  have h := C4_yet_to_bat
  have hstep : teamSlotStep ytbSection none
      = .ok (some (applyYtb (freshEntry (pstr "Chennai Super Kings")))) := by rfl
  obtain ⟨x, hx, hsc, _, _, _, hic⟩ :=
    h.1 ytbSection none ⟨pstr "Yet to bat", []⟩ _ rfl (by decide) hstep
  refine ⟨h.2.1 ytbBowlingDoc (some battedTeam) (some ytbTeam) [] .team2 (by decide),
    (h.2.2.1 ytbBowlingDoc (some battedTeam) (some ytbTeam) [] none none (by decide)).1,
    (h.2.2.1 ytbBowlingDoc (some battedTeam) (some ytbTeam) [] none none (by decide)).2,
    x, hx, hsc, ?_⟩
  rw [hic]
  rfl

/-! ## C6: bowler upsert / deduplication -/

/-- "At most one entry per distinct player name". -/
def namesNodup (l : List BowlingEntry) : Prop := (l.map (·.name)).Nodup

theorem lastIdxOfName_eq_none {n : PyStr} {l : List BowlingEntry}
    (h : lastIdxOfName n l = none) : ∀ e ∈ l, e.name ≠ n := by
  induction l with
  | nil => intro e he; cases he
  | cons x xs ih =>
    intro e he
    simp only [lastIdxOfName] at h
    cases hx : lastIdxOfName n xs with
    | some j => rw [hx] at h; cases h
    | none =>
      rw [hx] at h
      by_cases hxn : x.name = n
      · rw [if_pos hxn] at h; cases h
      · rcases List.mem_cons.mp he with rfl | hmem
        · exact hxn
        · exact ih hx e hmem

theorem lastIdxOfName_some_mem {n : PyStr} {l : List BowlingEntry} {i : Nat}
    (h : lastIdxOfName n l = some i) : n ∈ l.map (·.name) := by
  induction l generalizing i with
  | nil => cases h
  | cons x xs ih =>
    simp only [lastIdxOfName] at h
    cases hx : lastIdxOfName n xs with
    | some j =>
      rw [hx] at h
      exact List.mem_cons_of_mem _ (ih hx)
    | none =>
      rw [hx] at h
      by_cases hxn : x.name = n
      · exact hxn ▸ List.mem_cons_self _ _
      · rw [if_neg hxn] at h; cases h

theorem set_map_name {b : BowlingEntry} :
    ∀ (l : List BowlingEntry) (i : Nat), lastIdxOfName b.name l = some i →
      (l.set i b).map (·.name) = l.map (·.name) := by
  intro l
  induction l with
  | nil => intro i h; cases h
  | cons x xs ih =>
    intro i h
    simp only [lastIdxOfName] at h
    cases hx : lastIdxOfName b.name xs with
    | some j =>
      rw [hx] at h
      cases h
      rw [show (x :: xs).set (j + 1) b = x :: xs.set j b from rfl]
      simp only [List.map_cons]
      rw [ih j hx]
    | none =>
      rw [hx] at h
      by_cases hxn : x.name = b.name
      · rw [if_pos hxn] at h
        cases h
        simp [hxn]
      · rw [if_neg hxn] at h; cases h

theorem set_filter_self {b : BowlingEntry} :
    ∀ (l : List BowlingEntry) (i : Nat), lastIdxOfName b.name l = some i →
      namesNodup l → (l.set i b).filter (fun e => e.name = b.name) = [b] := by
  intro l
  induction l with
  | nil => intro i h; cases h
  | cons x xs ih =>
    intro i h hnd
    simp only [lastIdxOfName] at h
    have hnd' : namesNodup xs ∧ x.name ∉ xs.map (·.name) := by
      unfold namesNodup at hnd ⊢
      rw [List.map_cons, List.nodup_cons] at hnd
      exact ⟨hnd.2, hnd.1⟩
    cases hx : lastIdxOfName b.name xs with
    | some j =>
      rw [hx] at h
      cases h
      have hbx : x.name ≠ b.name := by
        intro hxb
        exact hnd'.2 (hxb ▸ lastIdxOfName_some_mem hx)
      rw [show (x :: xs).set (j + 1) b = x :: xs.set j b from rfl]
      rw [List.filter_cons_of_neg (by simp [hbx])]
      exact ih j hx hnd'.1
    | none =>
      rw [hx] at h
      by_cases hxn : x.name = b.name
      · rw [if_pos hxn] at h
        cases h
        rw [show (x :: xs).set 0 b = b :: xs from rfl]
        rw [List.filter_cons_of_pos (by simp)]
        rw [List.filter_eq_nil_iff.mpr]
        intro e he
        simp only [decide_eq_true_eq]
        exact lastIdxOfName_eq_none hx e he
      · rw [if_neg hxn] at h; cases h

theorem set_filter_other {b : BowlingEntry} {n : PyStr} (hn : n ≠ b.name) :
    ∀ (l : List BowlingEntry) (i : Nat), lastIdxOfName b.name l = some i →
      (l.set i b).filter (fun e => e.name = n) = l.filter (fun e => e.name = n) := by
  intro l
  induction l with
  | nil => intro i h; cases h
  | cons x xs ih =>
    intro i h
    simp only [lastIdxOfName] at h
    cases hx : lastIdxOfName b.name xs with
    | some j =>
      rw [hx] at h
      cases h
      rw [show (x :: xs).set (j + 1) b = x :: xs.set j b from rfl]
      by_cases hxn : x.name = n
      · rw [List.filter_cons_of_pos (by simp [hxn]), List.filter_cons_of_pos (by simp [hxn]),
          ih j hx]
      · rw [List.filter_cons_of_neg (by simp [hxn]), List.filter_cons_of_neg (by simp [hxn]),
          ih j hx]
    | none =>
      rw [hx] at h
      by_cases hxn : x.name = b.name
      · rw [if_pos hxn] at h
        cases h
        rw [show (x :: xs).set 0 b = b :: xs from rfl]
        rw [List.filter_cons_of_neg (by simp [hn.symm]),
          List.filter_cons_of_neg (by simp; rw [hxn]; exact fun hc => (hn hc.symm).elim)]
      · rw [if_neg hxn] at h; cases h

theorem addBowler_map_or_append (l : List BowlingEntry) (b : BowlingEntry) :
    (addBowlerIfNotExists l b).map (·.name) = l.map (·.name) ∨
    (addBowlerIfNotExists l b).map (·.name) = l.map (·.name) ++ [b.name] := by
  unfold addBowlerIfNotExists
  cases h : lastIdxOfName b.name l with
  | some i => exact .inl (set_map_name l i h)
  | none => exact .inr (by simp)

theorem addBowler_nodup {l : List BowlingEntry} (hl : namesNodup l) (b : BowlingEntry) :
    namesNodup (addBowlerIfNotExists l b) := by
  unfold addBowlerIfNotExists
  cases h : lastIdxOfName b.name l with
  | some i =>
    unfold namesNodup
    rw [set_map_name l i h]
    exact hl
  | none =>
    unfold namesNodup
    rw [List.map_append]
    simp only [List.map_cons, List.map_nil]
    rw [List.nodup_append]
    refine ⟨hl, List.nodup_singleton _, ?_⟩
    intro a ha
    simp only [List.mem_singleton]
    intro hab
    subst hab
    rcases List.mem_map.mp ha with ⟨e, he, hne⟩
    exact lastIdxOfName_eq_none h e he hne

theorem addBowler_filter_self {l : List BowlingEntry} (hl : namesNodup l) (b : BowlingEntry) :
    (addBowlerIfNotExists l b).filter (fun e => e.name = b.name) = [b] := by
  unfold addBowlerIfNotExists
  cases h : lastIdxOfName b.name l with
  | some i => exact set_filter_self l i h hl
  | none =>
    rw [List.filter_append]
    rw [List.filter_eq_nil_iff.mpr (fun e he => by
      simp only [decide_eq_true_eq]
      exact lastIdxOfName_eq_none h e he)]
    simp

theorem addBowler_filter_other (l : List BowlingEntry) (b : BowlingEntry) {n : PyStr}
    (hn : n ≠ b.name) :
    (addBowlerIfNotExists l b).filter (fun e => e.name = n)
      = l.filter (fun e => e.name = n) := by
  unfold addBowlerIfNotExists
  cases h : lastIdxOfName b.name l with
  | some i => exact set_filter_other hn l i h
  | none =>
    rw [List.filter_append]
    have : ¬ b.name = n := fun hc => hn hc.symm
    simp [this]

/-- The fold of upserts: names stay distinct, and the entries carried per
name are exactly the last parse of that name (or the accumulator's
entry when the name was never parsed). -/
theorem foldAdd_spec (ps : List BowlingEntry) : ∀ acc, namesNodup acc →
    namesNodup (ps.foldl addBowlerIfNotExists acc) ∧
    ∀ n, (ps.foldl addBowlerIfNotExists acc).filter (fun e => e.name = n)
      = ((ps.filter (fun e => e.name = n)).getLast?).elim
          (acc.filter (fun e => e.name = n)) (fun x => [x]) := by
  induction ps with
  | nil =>
    intro acc hacc
    exact ⟨hacc, fun n => by simp⟩
  | cons b ps' ih =>
    intro acc hacc
    have hacc' : namesNodup (addBowlerIfNotExists acc b) := addBowler_nodup hacc b
    obtain ⟨ihnd, ihf⟩ := ih (addBowlerIfNotExists acc b) hacc'
    refine ⟨by simpa using ihnd, ?_⟩
    intro n
    rw [List.foldl_cons]
    rw [ihf n]
    by_cases hb : b.name = n
    · subst hb
      rw [List.filter_cons_of_pos (by simp)]
      cases hps : ps'.filter (fun e => e.name = b.name) with
      | nil =>
        simp only [hps, List.getLast?_singleton, Option.elim]
        exact (addBowler_filter_self hacc b).symm ▸ rfl
      | cons y ys =>
        rw [List.getLast?_cons_cons]
        rfl
    · rw [List.filter_cons_of_neg (by simp [hb])]
      cases hps : ps'.filter (fun e => e.name = n) with
      | nil =>
        simp only [Option.elim]
        exact addBowler_filter_other acc b (fun hc => hb hc.symm)
      | cons y ys => rfl

theorem processBowlerRow_nodup {lst : List BowlingEntry} (h : namesNodup lst)
    (row : BowlingRow) : namesNodup (processBowlerRow lst row) := by
  cases hnc : row.name_cell with
  | none => simpa [processBowlerRow, hnc] using h
  | some nc =>
    simp only [processBowlerRow, hnc]
    split
    · exact h
    · split
      · exact addBowler_nodup h _
      · exact h

theorem foldRows_nodup (rows : List BowlingRow) :
    ∀ lst, namesNodup lst → namesNodup (rows.foldl processBowlerRow lst) := by
  induction rows with
  | nil => intro lst h; simpa using h
  | cons r rs ih =>
    intro lst h
    rw [List.foldl_cons]
    exact ih _ (processBowlerRow_nodup h r)

theorem processBowlingTable_nodup (cbt : Option TeamKey) (acc : BowlingSlots × Nat)
    (t : BowlingTable) (h1 : namesNodup (acc.1.get .team1)) (h2 : namesNodup (acc.1.get .team2)) :
    namesNodup ((processBowlingTable cbt acc t).1.get .team1) ∧
    namesNodup ((processBowlingTable cbt acc t).1.get .team2) := by
  by_cases hbt : isBowlingTable t = true
  · by_cases hsk : skipTable cbt (assignBowlingTeam t acc.2) = true
    · simp only [processBowlingTable]
      rw [if_neg (by simp [hbt]), if_pos hsk]
      exact ⟨h1, h2⟩
    · simp only [processBowlingTable]
      rw [if_neg (by simp [hbt]), if_neg (by simp [hsk])]
      cases hteam : assignBowlingTeam t acc.2 with
      | team1 => exact ⟨foldRows_nodup _ _ h1, h2⟩
      | team2 => exact ⟨h1, foldRows_nodup _ _ h2⟩
  · simp only [processBowlingTable]
    rw [if_pos (by simpa using hbt)]
    exact ⟨h1, h2⟩

theorem foldTables_nodup (cbt : Option TeamKey) (tables : List BowlingTable) :
    ∀ (acc : BowlingSlots × Nat), namesNodup (acc.1.get .team1) →
      namesNodup (acc.1.get .team2) →
      namesNodup ((tables.foldl (processBowlingTable cbt) acc).1.get .team1) ∧
      namesNodup ((tables.foldl (processBowlingTable cbt) acc).1.get .team2) := by
  induction tables with
  | nil => intro acc h1 h2; exact ⟨h1, h2⟩
  | cons t ts ih =>
    intro acc h1 h2
    rw [List.foldl_cons]
    have h := processBowlingTable_nodup cbt acc t h1 h2
    exact ih _ h.1 h.2

theorem inferMissing_nodup (t1 t2 : Option TeamEntry)
    (b1 b2 : Option (List BattingEntry)) (slots : BowlingSlots)
    (h1 : namesNodup (slots.get .team1)) (h2 : namesNodup (slots.get .team2)) :
    namesNodup ((inferMissingBowlingStats t1 t2 b1 b2 slots).get .team1) ∧
    namesNodup ((inferMissingBowlingStats t1 t2 b1 b2 slots).get .team2) := by
  have hone : ∀ e : BowlingEntry, namesNodup [e] := fun e => by
    simp [namesNodup]
  simp only [inferMissingBowlingStats]
  split
  · split
    · exact ⟨hone _, hone _⟩
    · exact ⟨hone _, h2⟩
  · split
    · exact ⟨h1, hone _⟩
    · exact ⟨h1, h2⟩

theorem bowlingCompute_nodup (d : Doc) (t1 t2 : Option TeamEntry) (status : PyStr)
    (b1 b2 : Option (List BattingEntry)) :
    namesNodup ((bowlingCompute d t1 t2 status b1 b2).get .team1) ∧
    namesNodup ((bowlingCompute d t1 t2 status b1 b2).get .team2) := by
  have hnil : namesNodup ([] : List BowlingEntry) := by simp [namesNodup]
  have hfold := foldTables_nodup (determineCurrentBowlingTeam t1 t2 status)
    d.bowling_tables (([], []), 0) hnil hnil
  simp only [bowlingCompute]
  split
  · exact inferMissing_nodup t1 t2 b1 b2 _ hfold.1 hfold.2
  · exact hfold

theorem firstOccurrences_eq_self :
    ∀ (l : List BowlingEntry) (seen : List PyStr), (∀ e ∈ l, e.name ∉ seen) →
      namesNodup l → firstOccurrences seen l = l := by
  intro l
  induction l with
  | nil => intro seen _ _; rfl
  | cons e es ih =>
    intro seen hseen hnd
    have hnd' : namesNodup es ∧ e.name ∉ es.map (·.name) := by
      unfold namesNodup at hnd ⊢
      rw [List.map_cons, List.nodup_cons] at hnd
      exact ⟨hnd.2, hnd.1⟩
    simp only [firstOccurrences]
    rw [if_neg (hseen e (List.mem_cons_self e es))]
    rw [ih (e.name :: seen) ?_ hnd'.1]
    intro x hx
    simp only [List.mem_cons]
    rintro (hxe | hxs)
    · exact hnd'.2 (hxe ▸ List.mem_map_of_mem _ hx)
    · exact hseen x (List.mem_cons_of_mem e hx) hxs

theorem validateBowlingList_of_nodup {l : List BowlingEntry} (h : namesNodup l) :
    validateBowlingList l = l := by
  unfold validateBowlingList
  rw [firstOccurrences_eq_self l [] (by simp) h]
  simp

/-- C6.  Bowling entries are upserted by name: the final list built by
`_add_bowler_if_not_exists` has at most one entry per distinct player
name, carries the *last* parsed values for every name (first conjunct),
replaces an existing name in place at its original index without
disturbing the name order (second conjunct), and after a full update
every team slot's bowling list still has pairwise-distinct names (third
conjunct). -/
theorem C6_bowler_upsert :
    (∀ parses : List BowlingEntry,
      namesNodup (parses.foldl addBowlerIfNotExists []) ∧
      ∀ n, (parses.foldl addBowlerIfNotExists []).filter (fun e => e.name = n)
        = ((parses.filter (fun e => e.name = n)).getLast?).elim [] (fun x => [x])) ∧
    (∀ (l : List BowlingEntry) (b : BowlingEntry) (i : Nat),
      lastIdxOfName b.name l = some i →
      addBowlerIfNotExists l b = l.set i b ∧
        (l.set i b).map (·.name) = l.map (·.name)) ∧
    (∀ (st : MatchData) (d : Doc) (now : PyStr) (r : Option MatchData) (s' : MatchData),
      updateCycle st (some d) now = .ok (r, s') →
      ∀ k, namesNodup ((s'.getBowling k).getD [])) := by
  refine ⟨?_, ?_, ?_⟩
  · intro parses
    have h := foldAdd_spec parses [] (by simp [namesNodup])
    exact ⟨h.1, h.2⟩
  · intro l b i h
    exact ⟨by simp [addBowlerIfNotExists, h], set_map_name l i h⟩
  · intro st d now r s' heq
    simp only [updateCycle] at heq
    cases heq
    intro k
    have hb := bowlingCompute_nodup d
      (parse_batting_stats (parse_teams_and_scores (parse_match_info st d) d) d).team1
      (parse_batting_stats (parse_teams_and_scores (parse_match_info st d) d) d).team2
      (parse_batting_stats (parse_teams_and_scores (parse_match_info st d) d) d).match_info.status
      (parse_batting_stats (parse_teams_and_scores (parse_match_info st d) d) d).batting1
      (parse_batting_stats (parse_teams_and_scores (parse_match_info st d) d) d).batting2
    cases k with
    | team1 =>
      have e : ((validate_data { parse_html st d with last_updated := now }).getBowling
            TeamKey.team1).getD []
          = validateBowlingList (bowlingCompute d
              (parse_batting_stats (parse_teams_and_scores (parse_match_info st d) d) d).team1
              (parse_batting_stats (parse_teams_and_scores (parse_match_info st d) d) d).team2
              (parse_batting_stats (parse_teams_and_scores (parse_match_info st d) d) d).match_info.status
              (parse_batting_stats (parse_teams_and_scores (parse_match_info st d) d) d).batting1
              (parse_batting_stats (parse_teams_and_scores (parse_match_info st d) d) d).batting2).1 := rfl
      have hb1 : namesNodup (bowlingCompute d
          (parse_batting_stats (parse_teams_and_scores (parse_match_info st d) d) d).team1
          (parse_batting_stats (parse_teams_and_scores (parse_match_info st d) d) d).team2
          (parse_batting_stats (parse_teams_and_scores (parse_match_info st d) d) d).match_info.status
          (parse_batting_stats (parse_teams_and_scores (parse_match_info st d) d) d).batting1
          (parse_batting_stats (parse_teams_and_scores (parse_match_info st d) d) d).batting2).1 := hb.1
      rw [e, validateBowlingList_of_nodup hb1]
      exact hb1
    | team2 =>
      have e : ((validate_data { parse_html st d with last_updated := now }).getBowling
            TeamKey.team2).getD []
          = validateBowlingList (bowlingCompute d
              (parse_batting_stats (parse_teams_and_scores (parse_match_info st d) d) d).team1
              (parse_batting_stats (parse_teams_and_scores (parse_match_info st d) d) d).team2
              (parse_batting_stats (parse_teams_and_scores (parse_match_info st d) d) d).match_info.status
              (parse_batting_stats (parse_teams_and_scores (parse_match_info st d) d) d).batting1
              (parse_batting_stats (parse_teams_and_scores (parse_match_info st d) d) d).batting2).2 := rfl
      have hb2 : namesNodup (bowlingCompute d
          (parse_batting_stats (parse_teams_and_scores (parse_match_info st d) d) d).team1
          (parse_batting_stats (parse_teams_and_scores (parse_match_info st d) d) d).team2
          (parse_batting_stats (parse_teams_and_scores (parse_match_info st d) d) d).match_info.status
          (parse_batting_stats (parse_teams_and_scores (parse_match_info st d) d) d).batting1
          (parse_batting_stats (parse_teams_and_scores (parse_match_info st d) d) d).batting2).2 := hb.2
      rw [e, validateBowlingList_of_nodup hb2]
      exact hb2

/-- Two parses of the same bowler within one update (the second with
newer figures) and one other bowler. -/
def bowlerA1 : BowlingEntry :=
  ⟨pstr "Jasprit Bumrah", pstr "2.0", pstr "0", pstr "15", pstr "1", pstr "7.50", false⟩

def bowlerA2 : BowlingEntry :=
  ⟨pstr "Jasprit Bumrah", pstr "3.0", pstr "0", pstr "21", pstr "2", pstr "7.00", false⟩

def bowlerB : BowlingEntry :=
  ⟨pstr "Trent Boult", pstr "2.0", pstr "1", pstr "9", pstr "0", pstr "4.50", false⟩

/-- The state one update over an empty document produces. -/
def updatedState : MatchData :=
  validate_data { parse_html staleCommState emptyDoc with last_updated := [] }

/-- Witness for C6: two parses of "Jasprit Bumrah", the survivor is the
later parse at the original position. -/
theorem C6_witness :
    namesNodup ([bowlerA1, bowlerB, bowlerA2].foldl addBowlerIfNotExists []) ∧
    ([bowlerA1, bowlerB, bowlerA2].foldl addBowlerIfNotExists []).filter
        (fun e => e.name = bowlerA1.name) = [bowlerA2] ∧
    addBowlerIfNotExists [bowlerA1, bowlerB] bowlerA2 = [bowlerA2, bowlerB] ∧
    namesNodup ((updatedState.getBowling .team1).getD []) := by
  have h := C6_bowler_upsert
  refine ⟨(h.1 _).1, ?_, ?_, ?_⟩
  · rw [(h.1 [bowlerA1, bowlerB, bowlerA2]).2 bowlerA1.name]
    decide
  · rw [(h.2.1 [bowlerA1, bowlerB] bowlerA2 0 (by decide)).1]
    decide
  · exact h.2.2 staleCommState emptyDoc [] (some updatedState) updatedState rfl .team1

/-! ## C3: inferring extra dismissals -/

/-- The claim's description of the inference pass: walk the rows in
original table order, marking a row out (generic label) when it is not
already out, not one of the protected pair, and the remaining budget `k`
is positive. -/
def markFirstK (cur : List BatRowData) : Nat → List BatRowData → List BatRowData
  | _, [] => []
  | k, b :: rest =>
    if (¬ b.is_out ∧ b ∉ cur) ∧ k ≠ 0 then markOut b :: markFirstK cur (k - 1) rest
    else b :: markFirstK cur k rest

/-- Rows that the marking loop may still mark out. -/
def eligibleCount (cur rows : List BatRowData) : Nat :=
  (rows.filter (fun b => ¬ b.is_out ∧ b ∉ cur)).length

theorem markFirstK_zero (cur : List BatRowData) : ∀ l, markFirstK cur 0 l = l := by
  intro l
  induction l with
  | nil => rfl
  | cons b rest ih => simp [markFirstK, ih]

theorem markLoop_eq_markFirstK (cur : List BatRowData) (wickets : Int) :
    ∀ (rows : List BatRowData) (count : Int), count < wickets →
      markLoop cur wickets count rows = markFirstK cur (wickets - count).toNat rows := by
  intro rows
  induction rows with
  | nil => intro count _; rfl
  | cons b rest ih =>
    intro count h
    by_cases hskip : b.is_out = true ∨ b ∈ cur
    · have hcond : ¬ ((¬ b.is_out = true ∧ b ∉ cur) ∧ (wickets - count).toNat ≠ 0) := by
        rcases hskip with h1 | h2
        · exact fun hc => hc.1.1 h1
        · exact fun hc => hc.1.2 h2
      rw [show markLoop cur wickets count (b :: rest) = b :: markLoop cur wickets count rest
        from by simp [markLoop, hskip]]
      rw [show markFirstK cur (wickets - count).toNat (b :: rest)
          = b :: markFirstK cur (wickets - count).toNat rest from by
        simp only [markFirstK]; rw [if_neg hcond]]
      rw [ih count h]
    · push_neg at hskip
      obtain ⟨hout, hmem⟩ := hskip
      have hk0 : (wickets - count).toNat ≠ 0 := by omega
      rw [show markFirstK cur (wickets - count).toNat (b :: rest)
          = markOut b :: markFirstK cur ((wickets - count).toNat - 1) rest
        from by simp [markFirstK, hout, hmem, hk0]]
      by_cases hbreak : count + 1 ≥ wickets
      · rw [show markLoop cur wickets count (b :: rest) = markOut b :: rest
          from by simp [markLoop, hout, hmem, hbreak]]
        have hz : (wickets - count).toNat - 1 = 0 := by omega
        rw [hz, markFirstK_zero]
      · rw [show markLoop cur wickets count (b :: rest)
            = markOut b :: markLoop cur wickets (count + 1) rest
          from by simp [markLoop, hout, hmem, hbreak]]
        rw [ih (count + 1) (by omega)]
        have hk : (wickets - count).toNat - 1 = (wickets - (count + 1)).toNat := by omega
        rw [hk]

theorem countOut_cons (b : BatRowData) (l : List BatRowData) :
    countOut (b :: l) = (if b.is_out then 1 else 0) + countOut l := by
  by_cases h : b.is_out = true
  · simp [countOut, h]
    omega
  · simp [countOut, h]

theorem markFirstK_countOut (cur : List BatRowData) :
    ∀ (rows : List BatRowData) (k : Nat),
      countOut (markFirstK cur k rows)
        = countOut rows + min k (eligibleCount cur rows) := by
  intro rows
  induction rows with
  | nil => intro k; simp [markFirstK, eligibleCount, countOut]
  | cons b rest ih =>
    intro k
    by_cases he : (¬ b.is_out = true ∧ b ∉ cur)
    · obtain ⟨hout, hmem⟩ := he
      have hec : eligibleCount cur (b :: rest) = eligibleCount cur rest + 1 := by
        simp [eligibleCount, List.filter_cons, hout, hmem]
      cases k with
      | zero =>
        rw [markFirstK_zero]
        simp
      | succ k' =>
        rw [show markFirstK cur (k' + 1) (b :: rest) = markOut b :: markFirstK cur k' rest
          from by
            simp only [markFirstK]
            rw [if_pos (And.intro (And.intro hout hmem) (Nat.succ_ne_zero k')),
              Nat.add_sub_cancel]]
        have hmo : (markOut b).is_out = true := rfl
        rw [countOut_cons, countOut_cons, ih k', hec, if_pos hmo, if_neg hout,
          Nat.succ_min_succ]
        omega
    · have he' : b.is_out = true ∨ b ∈ cur := by
        by_cases hb : b.is_out = true
        · exact Or.inl hb
        · by_cases hm : b ∈ cur
          · exact Or.inr hm
          · exact absurd ⟨hb, hm⟩ he
      have hec : eligibleCount cur (b :: rest) = eligibleCount cur rest := by
        rcases he' with h1 | h2
        · simp [eligibleCount, List.filter_cons, h1]
        · simp [eligibleCount, List.filter_cons, h2]
      rw [show markFirstK cur k (b :: rest) = b :: markFirstK cur k rest
        from by
          simp only [markFirstK]
          rw [if_neg (fun hc => he hc.1)]]
      rw [countOut_cons, countOut_cons, ih k, hec]
      omega

/-- A batting row as collected from a table (concrete test data). -/
def mkBatRow (i : Nat) (nm runs : String) (out : Bool) : BatRowData :=
  { name := pstr nm, runs := pstr runs, balls := pstr "10", fours := pstr "1",
    sixes := pstr "0", strike_rate := pstr "100.0",
    dismissal := if out then pstr "c Fielder b Bowler" else pstr "batting",
    is_out := out, rowIdx := i }

/-- Six rows, four out; the two not-out rows are the two highest scorers. -/
def sixRowsTopNotOut : List BatRowData :=
  [ mkBatRow 0 "A Openerone" "10" true,
    mkBatRow 1 "B Openertwo" "20" true,
    mkBatRow 2 "C Three" "30" true,
    mkBatRow 3 "D Four" "40" true,
    mkBatRow 4 "E Five" "50" false,
    mkBatRow 5 "F Six" "60" false ]

/-- Six rows, four out; the two highest scorers are among the out rows. -/
def sixRowsTopOut : List BatRowData :=
  [ mkBatRow 0 "A Openerone" "40" true,
    mkBatRow 1 "B Openertwo" "50" true,
    mkBatRow 2 "C Three" "30" true,
    mkBatRow 3 "D Four" "20" true,
    mkBatRow 4 "E Five" "5" false,
    mkBatRow 5 "F Six" "2" false ]

/-- C3 (amended): when the recorded wicket count exceeds the number of
rows detected as out, the reconciliation pass of `parse_batting_stats`
(lines 360-385) marks additional rows out with the generic label,
in original table order, skipping rows already out and the two
highest-run-scoring rows; the resulting out count is the previous count
plus the minimum of the remaining budget and the number of eligible
rows, so it reaches the wicket count only when enough rows are neither
already out nor protected as the top-two scorers. -/
theorem C3_dismissal_inference (rows : List BatRowData) (wickets : Int)
    (hgt : (countOut rows : Int) < wickets) :
    reconcileRows rows wickets
      = markFirstK (currentBatsmen rows) (wickets - (countOut rows : Int)).toNat rows ∧
    countOut (reconcileRows rows wickets)
      = countOut rows
        + min (wickets - (countOut rows : Int)).toNat
            (eligibleCount (currentBatsmen rows) rows) := by
  have h1 : reconcileRows rows wickets
      = markLoop (currentBatsmen rows) wickets (countOut rows : Int) rows := by
    simp only [reconcileRows]
    rw [if_pos hgt]
  rw [h1, markLoop_eq_markFirstK _ _ rows _ hgt]
  exact ⟨rfl, markFirstK_countOut _ rows _⟩

/-- C3 counterexample: a six-row table with four rows flagged out and
recorded wicket count 6 where the two not-out rows are the two highest
scorers; both are protected, so the pass marks nothing and only 4 rows
end up flagged out, not 6. -/
theorem C3_counterexample :
    sixRowsTopNotOut.length = 6 ∧
    countOut sixRowsTopNotOut = 4 ∧
    countOut (reconcileRows sixRowsTopNotOut 6) = 4 := by decide

/-- C3 witness: on a six-row table with four out rows that include the
two highest scorers, the budget-2 marking applies to the two eligible
rows and exactly 6 rows end up flagged out. -/
theorem C3_witness :
    (countOut sixRowsTopOut : Int) < 6 ∧
    countOut (reconcileRows sixRowsTopOut 6) = 6 := by
  refine ⟨by decide, ?_⟩
  have h := C3_dismissal_inference sixRowsTopOut 6 (by decide)
  rw [h.2]
  decide

/-! ## C1: containment of a sub-extractor failure -/

/-- A batting entry left by an earlier successful update. -/
def preBatEntry : BattingEntry :=
  { name := pstr "Rohit Sharma", runs := pstr "45", balls := pstr "30",
    fours := pstr "5", sixes := pstr "2", strike_rate := pstr "150.0",
    dismissal := pstr "not out" }

/-- A team slot whose wickets string is non-numeric, as the teams stage
stores from a score text of the form `"120/abc (20)"` (the split at
lines 195-204 never validates the wickets token). -/
def badWicketsTeam : TeamEntry :=
  { name := some (pstr "Mumbai Indians"), score := some (pstr "120/abc (20)"),
    runs := some (pstr "120"), wickets := some (pstr "abc"),
    overs := some (pstr "20"), innings_complete := some true, won := none }

/-- Pre-update state for the C1 scenario: batting data from an earlier
update, plus the team slot above. -/
def c1State : MatchData :=
  { match_info := emptyMatchInfo, team1 := some badWicketsTeam, team2 := none,
    batting1 := some [preBatEntry], batting2 := none,
    bowling1 := none, bowling2 := none, commentary := [], last_updated := [] }

/-- A document with one accepted batting table and nothing else; its
processing reaches `int(team_data.get('wickets', '0'))` and raises. -/
def c1Doc : Doc :=
  { emptyDoc with batting_tables := [⟨some (pstr "BATTERS R B 4s 6s SR"), []⟩] }

/-- C1 (amended): an internal failure of the batting extractor is caught
at that extractor's boundary: every other section keeps the value it had
going into the extractor and the update cycle still completes; the
extractor's own section, however, is left holding the value at the
failure point — its slots were cleared on entry (line 245) and partially
rebuilt — not its pre-update value. -/
theorem C1_failure_containment (st : MatchData) (d : Doc) (o : BattingOut) (now : PyStr)
    (hfail : battingComputeE d st.team1 st.team2 st.match_info.status = .error o) :
    parse_batting_stats st d
      = { st with batting1 := o.b1, batting2 := o.b2,
                  match_info := applyInnings st.match_info o.innings } ∧
    (parse_batting_stats st d).team1 = st.team1 ∧
    (parse_batting_stats st d).team2 = st.team2 ∧
    (parse_batting_stats st d).bowling1 = st.bowling1 ∧
    (parse_batting_stats st d).bowling2 = st.bowling2 ∧
    (parse_batting_stats st d).commentary = st.commentary ∧
    (updateCycle st (some d) now).isOk = true := by
  have hc : battingCompute d st.team1 st.team2 st.match_info.status = o := by
    simp [battingCompute, hfail, Except.payload]
  refine ⟨?_, ?_, ?_, ?_, ?_, ?_, rfl⟩ <;> simp [parse_batting_stats, hc]

/-- C1 counterexample: the batting extractor fails internally
(`int("abc")` at line 362) after clearing its section; the failure is
caught, yet the batting section ends the cycle holding the cleared
value `some []`, not its pre-update value. -/
theorem C1_counterexample :
    (battingComputeE c1Doc c1State.team1 c1State.team2 c1State.match_info.status).isOk
      = false ∧
    c1State.batting1 = some [preBatEntry] ∧
    (parse_html c1State c1Doc).batting1 = some [] ∧
    (parse_html c1State c1Doc).batting1 ≠ c1State.batting1 := by decide

/-- C1 witness: the containment theorem applied to the concrete failing
scenario. -/
theorem C1_witness :
    battingComputeE c1Doc c1State.team1 c1State.team2 c1State.match_info.status
      = .error ⟨some [], none, none⟩ ∧
    (parse_batting_stats c1State c1Doc).batting1 = some [] ∧
    (parse_batting_stats c1State c1Doc).commentary = c1State.commentary := by
  have h := C1_failure_containment c1State c1Doc ⟨some [], none, none⟩ [] (by rfl)
  exact ⟨by rfl, by rw [h.1], h.2.2.2.2.2.1⟩

/-! ## C8: idempotence of re-extraction -/

theorem applyInnings_status (mi : MatchInfo) (inn : Option PyStr) :
    (applyInnings mi inn).status = mi.status := by cases inn <;> rfl

theorem applyInnings_idem (mi : MatchInfo) (inn : Option PyStr) :
    applyInnings (applyInnings mi inn) inn = applyInnings mi inn := by cases inn <;> rfl

theorem commCompute_idem (d : Doc) (prior : List CommentaryEntry) :
    commCompute d (commCompute d prior) = commCompute d prior := by
  by_cases h : d.commentary_items.isEmpty <;> simp [commCompute, h]

set_option maxHeartbeats 1000000 in
theorem miCompute_innings_idem (d : Doc) (mi : MatchInfo) (x : Option PyStr) :
    miCompute d { miCompute d mi with innings_status := x }
      = { miCompute d mi with innings_status := x } := by
  obtain ⟨te, se, de, me, ve, ts, bt, bw, ci⟩ := d
  cases te <;> cases se <;> cases me <;> cases ve <;> cases de
  all_goals first
    | rfl
    | (rename_i de'
       by_cases h : de'.has_team_score_child <;> simp [miCompute, h])

theorem miCompute_applyInnings (d : Doc) (mi : MatchInfo) (inn : Option PyStr) :
    miCompute d (applyInnings (miCompute d mi) inn) = applyInnings (miCompute d mi) inn := by
  cases inn with
  | none => exact miCompute_innings_idem d mi ((miCompute d mi).innings_status)
  | some v => exact miCompute_innings_idem d mi (some v)

theorem teamSlotStep_idem (sec : TeamSection) (e : Option TeamEntry) :
    teamSlotStep sec (teamSlotStep sec e).payload = teamSlotStep sec e := by
  cases hn : sec.name_elem with
  | some ne =>
    have hconst : ∀ e' : Option TeamEntry,
        teamSlotStep sec e' = teamSlotStep sec (some (freshEntry (pyStrip ne.text))) := by
      intro e'
      simp only [teamSlotStep, nameStep, hn]
    rw [hconst ((teamSlotStep sec e).payload), hconst e]
  | none =>
    cases hs : sec.score_elem with
    | none =>
      have hwc : ∀ e' : Option TeamEntry, wonChecks sec e' = .ok e' := by
        intro e'
        unfold wonChecks
        rw [hn, hs]
        rfl
      have hst : ∀ e' : Option TeamEntry, teamSlotStep sec e' = .ok e' := by
        intro e'
        simp only [teamSlotStep, nameStep, hn, hs]
        exact hwc e'
      rw [hst e]
      exact hst e
    | some se =>
      by_cases hy : pyIn (pstr "yet to bat") (pyLower (pyStrip se.text)) = true
      · cases e with
        | none =>
          have h1 : teamSlotStep sec none = .error none := by
            simp only [teamSlotStep, nameStep, hn, hs, hy, if_true]
          rw [h1]
          exact h1
        | some x =>
          have h1 : ∀ z, teamSlotStep sec (some z) = .ok (some (applyYtb z)) := by
            intro z
            simp only [teamSlotStep, nameStep, hn, hs, hy, if_true]
          rw [h1 x]
          have h2 := h1 (applyYtb x)
          rw [show applyYtb (applyYtb x) = applyYtb x from rfl] at h2
          exact h2
      · cases hp : parseScoreParts (pyStrip se.text) with
        | none =>
          have h1 : ∀ e' : Option TeamEntry, teamSlotStep sec e' = .error e' := by
            intro e'
            simp only [teamSlotStep, nameStep, hn, hs, hy, hp]
            rfl
          rw [h1 e]
          exact h1 e
        | some parts =>
          obtain ⟨score, runs, wickets, overs⟩ := parts
          cases hic : inningsCompleteOf overs wickets with
          | none =>
            have h1 : ∀ e' : Option TeamEntry, teamSlotStep sec e' = .error e' := by
              intro e'
              simp only [teamSlotStep, nameStep, hn, hs, hy, hp, hic]
              rfl
            rw [h1 e]
            exact h1 e
          | some ic =>
            cases e with
            | none =>
              have h1 : teamSlotStep sec none = .error none := by
                simp only [teamSlotStep, nameStep, hn, hs, hy, hp, hic]
                rfl
              rw [h1]
              exact h1
            | some x =>
              have h1 : ∀ z, teamSlotStep sec (some z)
                  = wonChecks sec (some (applyScore z score runs wickets overs ic)) := by
                intro z
                simp only [teamSlotStep, nameStep, hn, hs, hy, hp, hic]
                rfl
              by_cases hw : pstr "ckt_won" ∈ se.classes
              · have h2 : ∀ z : TeamEntry,
                    wonChecks sec (some z) = .ok (some { z with won := some true }) := by
                  intro z
                  unfold wonChecks
                  rw [hn, hs]
                  simp only [hw, if_pos, setWonE]
                  rfl
                rw [h1 x, h2]
                rw [show (Except.ok (α := Option TeamEntry)
                      (some { applyScore x score runs wickets overs ic with won := some true })).payload
                    = some { applyScore x score runs wickets overs ic with won := some true } from rfl]
                rw [h1 ({ applyScore x score runs wickets overs ic with won := some true }), h2]
                rfl
              · have h2 : ∀ z : TeamEntry, wonChecks sec (some z) = .ok (some z) := by
                  intro z
                  unfold wonChecks
                  rw [hn, hs]
                  simp only [hw, if_neg]
                  rfl
                rw [h1 x, h2]
                rw [show (Except.ok (α := Option TeamEntry)
                      (some (applyScore x score runs wickets overs ic))).payload
                    = some (applyScore x score runs wickets overs ic) from rfl]
                rw [h1 (applyScore x score runs wickets overs ic), h2]
                rfl

theorem teamsComputeE_idem (d : Doc) (t1 t2 : Option TeamEntry) :
    teamsComputeE d (teamsComputeE d t1 t2).payload.1 (teamsComputeE d t1 t2).payload.2
      = teamsComputeE d t1 t2 := by
  cases hts : d.team_sections with
  | nil =>
    have h0 : teamsComputeE d t1 t2 = .ok (t1, t2) := by
      simp only [teamsComputeE, hts]
    rw [h0]
    exact h0
  | cons s1 rest =>
    cases rest with
    | nil =>
      cases h1 : teamSlotStep s1 t1 with
      | ok e1 =>
        have hi1 : teamSlotStep s1 e1 = .ok e1 := by
          have hh := teamSlotStep_idem s1 t1
          rw [h1] at hh
          exact hh
        have h0 : teamsComputeE d t1 t2 = .ok (e1, t2) := by
          simp only [teamsComputeE, hts, h1]
        rw [h0]
        simp only [teamsComputeE, hts, Except.payload, hi1]
      | error e1 =>
        have hi1 : teamSlotStep s1 e1 = .error e1 := by
          have hh := teamSlotStep_idem s1 t1
          rw [h1] at hh
          exact hh
        have h0 : teamsComputeE d t1 t2 = .error (e1, t2) := by
          simp only [teamsComputeE, hts, h1]
        rw [h0]
        simp only [teamsComputeE, hts, Except.payload, hi1]
    | cons s2 rest2 =>
      cases h1 : teamSlotStep s1 t1 with
      | error e1 =>
        have hi1 : teamSlotStep s1 e1 = .error e1 := by
          have hh := teamSlotStep_idem s1 t1
          rw [h1] at hh
          exact hh
        have h0 : teamsComputeE d t1 t2 = .error (e1, t2) := by
          simp only [teamsComputeE, hts, h1]
        rw [h0]
        simp only [teamsComputeE, hts, Except.payload, hi1]
      | ok e1 =>
        have hi1 : teamSlotStep s1 e1 = .ok e1 := by
          have hh := teamSlotStep_idem s1 t1
          rw [h1] at hh
          exact hh
        cases h2 : teamSlotStep s2 t2 with
        | ok e2 =>
          have hi2 : teamSlotStep s2 e2 = .ok e2 := by
            have hh := teamSlotStep_idem s2 t2
            rw [h2] at hh
            exact hh
          have h0 : teamsComputeE d t1 t2 = .ok (e1, e2) := by
            simp only [teamsComputeE, hts, h1, h2]
          rw [h0]
          simp only [teamsComputeE, hts, Except.payload, hi1, hi2]
        | error e2 =>
          have hi2 : teamSlotStep s2 e2 = .error e2 := by
            have hh := teamSlotStep_idem s2 t2
            rw [h2] at hh
            exact hh
          have h0 : teamsComputeE d t1 t2 = .error (e1, e2) := by
            simp only [teamsComputeE, hts, h1, h2]
          rw [h0]
          simp only [teamsComputeE, hts, Except.payload, hi1, hi2]

/-- `parse_html` in closed form: each section is a pure function of the
document and the pre-update state. -/
theorem parse_html_eq (st : MatchData) (d : Doc) :
    parse_html st d =
      { match_info := applyInnings (miCompute d st.match_info)
          (battingCompute d (teamsComputeE d st.team1 st.team2).payload.1
            (teamsComputeE d st.team1 st.team2).payload.2
            (miCompute d st.match_info).status).innings,
        team1 := (teamsComputeE d st.team1 st.team2).payload.1,
        team2 := (teamsComputeE d st.team1 st.team2).payload.2,
        batting1 := (battingCompute d (teamsComputeE d st.team1 st.team2).payload.1
            (teamsComputeE d st.team1 st.team2).payload.2
            (miCompute d st.match_info).status).b1,
        batting2 := (battingCompute d (teamsComputeE d st.team1 st.team2).payload.1
            (teamsComputeE d st.team1 st.team2).payload.2
            (miCompute d st.match_info).status).b2,
        bowling1 := some (bowlingCompute d (teamsComputeE d st.team1 st.team2).payload.1
            (teamsComputeE d st.team1 st.team2).payload.2
            (miCompute d st.match_info).status
            (battingCompute d (teamsComputeE d st.team1 st.team2).payload.1
              (teamsComputeE d st.team1 st.team2).payload.2
              (miCompute d st.match_info).status).b1
            (battingCompute d (teamsComputeE d st.team1 st.team2).payload.1
              (teamsComputeE d st.team1 st.team2).payload.2
              (miCompute d st.match_info).status).b2).1,
        bowling2 := some (bowlingCompute d (teamsComputeE d st.team1 st.team2).payload.1
            (teamsComputeE d st.team1 st.team2).payload.2
            (miCompute d st.match_info).status
            (battingCompute d (teamsComputeE d st.team1 st.team2).payload.1
              (teamsComputeE d st.team1 st.team2).payload.2
              (miCompute d st.match_info).status).b1
            (battingCompute d (teamsComputeE d st.team1 st.team2).payload.1
              (teamsComputeE d st.team1 st.team2).payload.2
              (miCompute d st.match_info).status).b2).2,
        commentary := commCompute d st.commentary,
        last_updated := st.last_updated } := by
  cases hx : teamsComputeE d st.team1 st.team2 with
  | ok p =>
    obtain ⟨a, b⟩ := p
    simp only [parse_html, parse_commentary, parse_bowling_stats, parse_batting_stats,
      parse_teams_and_scores, parse_teams_and_scoresE, parse_match_info, hx,
      Except.payload, applyInnings_status]
  | error p =>
    obtain ⟨a, b⟩ := p
    simp only [parse_html, parse_commentary, parse_bowling_stats, parse_batting_stats,
      parse_teams_and_scores, parse_teams_and_scoresE, parse_match_info, hx,
      Except.payload, applyInnings_status]

/-- C8: running the full extraction pass (`parse_html`) twice on the same
document yields the same `match_data` as running it once — every section
(teams, batting, bowling, commentary, and the match-info fields), with
the same entry ordering; `parse_html` never touches the timestamp. -/
theorem C8_reextraction_idempotent (st : MatchData) (d : Doc) :
    parse_html (parse_html st d) d = parse_html st d := by
  rw [parse_html_eq st d]
  rw [parse_html_eq]
  simp only [miCompute_applyInnings, applyInnings_status, teamsComputeE_idem,
    applyInnings_idem, commCompute_idem]
